import Mathlib

/-!
Verification of the per-node Lua script sandbox of the Cyoa editor
(`Editor/script.py`, class `LuaScriptSandbox`).

The Python class embeds a Lua interpreter (via lupa).  We give a shallow
embedding of the relevant behaviour:

* Lua values, a store of Lua tables (so that the shared `math`, `string`,
  `table` library tables of the single long-lived `LuaRuntime` are modelled
  as mutable state that persists across calls to `execute`);
* an AST and an interpreter for the fragment of Lua that author scripts
  use according to the specification (assignments, field assignments,
  `if`/`then`/`else`/`end`, arithmetic `+ - *`, comparisons, `and`/`or`,
  literals, field access, calls) — metatables, `_ENV` introspection,
  loops, function definitions, floats and the generic-`for` iterator
  protocol are outside the modelled subset: a construct outside the subset
  either fails to parse or raises a Lua error, it never silently succeeds;
* a tokenizer and recursive-descent parser standing for Lua `load`, so
  that load-time (syntax) failure and run-time failure are distinct, as in
  the source;
* the `execute` method itself, translated line by line: environment
  construction, injection of node / player / choice-flag data, the
  `safe_wrapper` (load + pcall), result extraction through the per-call
  `choice_map` reverse table, `print`-based error reporting, and the
  `try/except` that guards only the wrapper call.

The sandbox environment table (`sandbox_env`) is kept as a separate
association list rather than a store-resident table: the modelled fragment
has no `_ENV` and no table constructor, so no script expression can ever
evaluate to a reference to the environment table itself, and the two
representations are observationally equal.  Python-side scalars and the
Lua scalars they convert to are identified; the Python choice dictionaries
wrapped by `lupa` when `table_from` copies the (shallow) choices list are
modelled as `pyref` values under lupa's default attribute protocol on a
`dict`: indexing resolves dict method names (`pop`, `clear`, `get`, ...)
to bound methods — whose call can mutate the caller-owned record in
place — any other attribute read raises `AttributeError`, and attribute
assignment always raises.
-/

namespace CyoaSandbox

/-- Association-list lookup (Python `dict.__getitem__` / Lua table read). -/
def lookupStr {α : Type} : List (String × α) → String → Option α
  | [], _ => none
  | (k', v) :: t, k => if k' = k then some v else lookupStr t k

/-- Association-list update-or-append: the key keeps its original position
when it is already present, as in a Python `dict` assignment and in a Lua
table write. -/
def upsert {α : Type} : List (String × α) → String → α → List (String × α)
  | [], k, v => [(k, v)]
  | (k', v') :: t, k, v =>
    if k' = k then (k, v) :: t else (k', v') :: upsert t k v

/-- One record of the node's `choices` list.  The source reads only
`choice['id']`; `id = none` models a Python dictionary without an `'id'`
key, for which the subscript raises `KeyError`.  The records are
mutable caller-owned state: `table_from` wraps them by reference, so a
script calling a mutating dict method through the wrapper changes them
in place. -/
structure ChoiceRec where
  id : Option String
deriving DecidableEq, Repr

/-- Names of the host-provided functions reachable from the sandbox
environment.  Functions of the standard library whose behaviour no claim
exercises are `opaqueFn`: calling one raises, which keeps the model's
success set a subset of the real one. -/
inductive BName where
  | pairs
  | ipairs
  | tonumber
  | tostring
  | print
  | mathAbs
  | mathFloor
  | strLen
  | strRep
  | opaqueFn (tag : String)
deriving DecidableEq, Repr

/-- Lua values as seen by the sandbox.  `tableRef` is an address into the
runtime store; `pyref i` is the lupa wrapper around the `i`-th Python
choice dictionary of the current node.  Lupa's default attribute
protocol maps indexing of a wrapped object to `getattr`: a dict method
name (`pop`, `clear`, `get`, ...) resolves to a bound method
(`pymethod`), any other key raises `AttributeError`, and `setattr` on a
dict always raises. -/
inductive Value where
  | nil
  | boolean (b : Bool)
  | num (n : Int)
  | str (s : String)
  | tableRef (a : Nat)
  | builtin (b : BName)
  | pyref (i : Nat)
  | pymethod (i : Nat) (name : String)
deriving DecidableEq, Repr

/-- One Lua table: a string-keyed association list (integer keys are
outside the modelled subset; no claim reads an array-style entry). -/
abbrev Tbl := List (String × Value)

/-- The mutable state of the single `LuaRuntime` that `__init__` creates:
all Lua tables live here, addressed by list position.  It persists across
calls to `execute` on the same sandbox. -/
structure Store where
  tables : List Tbl
deriving DecidableEq, Repr

/-- Read `t[k]` (an absent key reads as `nil`). -/
def Store.read (s : Store) (a : Nat) (k : String) : Value :=
  match s.tables.get? a with
  | none => Value.nil
  | some t => (lookupStr t k).getD Value.nil

def setNth {α : Type} : List α → Nat → α → List α
  | [], _, _ => []
  | _ :: t, 0, x => x :: t
  | h :: t, n + 1, x => h :: setNth t n x

/-- Write `t[k] = v`. -/
def Store.write (s : Store) (a : Nat) (k : String) (v : Value) : Store :=
  match s.tables.get? a with
  | none => s
  | some t => ⟨setNth s.tables a (upsert t k v)⟩

/-- Allocating a fresh table appends it, so its address is the number of
tables already held. -/
def Store.allocated (s : Store) (t : Tbl) : Store :=
  ⟨s.tables ++ [t]⟩

/-- Binary operators of the modelled Lua fragment. -/
inductive BinOp where
  | add | sub | mul
  | lt | le | gt | ge
  | eq | ne
  | land | lor
deriving DecidableEq, Repr

/-- Expressions of the modelled Lua fragment. -/
inductive Expr where
  | lit (v : Value)
  | var (x : String)
  | binop (op : BinOp) (a b : Expr)
  | index (e : Expr) (k : String)
  | call (f : Expr) (args : List Expr)
deriving Repr

/-- Statements of the modelled Lua fragment.  Blocks are `seq` chains. -/
inductive Stat where
  | skip
  | seq (a b : Stat)
  | assign (x : String) (e : Expr)
  | assignIndex (t : Expr) (k : String) (e : Expr)
  | ifS (c : Expr) (t e : Stat)
  | callS (f : Expr) (args : List Expr)
deriving Repr

/-- The sandbox environment: `sandbox_env` of the source. -/
abbrev Env := List (String × Value)

/-- State that script evaluation can mutate: the table store, the text
printed so far (Lua `print` and the Python `print` of the harness share
one stream), and the caller-owned choice dictionaries of the current
node, reachable through the shallow `choices` wrapper and mutable by
their bound dict methods. -/
structure MState where
  store : Store
  log : List String
  pyChoices : List ChoiceRec
deriving DecidableEq, Repr

/-- Lua truthiness: only `nil` and `false` are falsy. -/
def truthy : Value → Bool
  | Value.nil => false
  | Value.boolean b => b
  | _ => true

/-- Lua type name, for error messages. -/
def typeName : Value → String
  | Value.nil => "nil"
  | Value.boolean _ => "boolean"
  | Value.num _ => "number"
  | Value.str _ => "string"
  | Value.tableRef _ => "table"
  | Value.builtin _ => "function"
  | Value.pyref _ => "userdata"
  | Value.pymethod _ _ => "function"

/-- Parse an optional-sign decimal integer, the numeric-string coercion
of the modelled fragment (floats and hex are outside the subset). -/
def parseIntStr (s : String) : Option Int :=
  let chars := s.toList
  let core : List Char → Option Int := fun l =>
    if l.isEmpty then none
    else if l.all Char.isDigit then
      some (l.foldl (fun acc c => acc * 10 + (Int.ofNat (c.toNat - 48))) 0)
    else none
  match chars with
  | '-' :: rest => (core rest).map Int.neg
  | _ => core chars

/-- Lua arithmetic coercion: numbers, and strings that look like numbers. -/
def toNumberOpt : Value → Option Int
  | Value.num n => some n
  | Value.str s => parseIntStr s
  | _ => none

/-- Rendering used by `tostring` and `print`. -/
def luaToString : Value → String
  | Value.nil => "nil"
  | Value.boolean true => "true"
  | Value.boolean false => "false"
  | Value.num n => toString n
  | Value.str s => s
  | Value.tableRef a => "table: " ++ toString a
  | Value.builtin _ => "function: builtin"
  | Value.pyref i => "userdata: " ++ toString i
  | Value.pymethod i name => "method: " ++ toString i ++ "." ++ name

/-- Apply a host-provided builtin.  Only `print` touches the state. -/
def applyBuiltin (b : BName) (args : List Value) (st : MState) :
    Except String Value × MState :=
  match b with
  | BName.print =>
      (Except.ok Value.nil,
       { st with log := st.log ++ [String.intercalate "\t" (args.map luaToString)] })
  | BName.tostring =>
      match args with
      | v :: _ => (Except.ok (Value.str (luaToString v)), st)
      | [] => (Except.error "bad argument #1 to tostring (value expected)", st)
  | BName.tonumber =>
      match args with
      | v :: _ =>
          (Except.ok ((toNumberOpt v).elim Value.nil Value.num), st)
      | [] => (Except.error "bad argument #1 to tonumber (value expected)", st)
  | BName.pairs => (Except.error "iterator protocol outside modelled subset", st)
  | BName.ipairs => (Except.error "iterator protocol outside modelled subset", st)
  | BName.mathAbs =>
      match args with
      | Value.num n :: _ => (Except.ok (Value.num (Int.natAbs n)), st)
      | _ => (Except.error "bad argument #1 to abs (number expected)", st)
  | BName.mathFloor =>
      match args with
      | Value.num n :: _ => (Except.ok (Value.num n), st)
      | _ => (Except.error "bad argument #1 to floor (number expected)", st)
  | BName.strLen =>
      match args with
      | Value.str s :: _ => (Except.ok (Value.num (Int.ofNat s.utf8ByteSize)), st)
      | _ => (Except.error "bad argument #1 to len (string expected)", st)
  | BName.strRep =>
      match args with
      | Value.str s :: Value.num n :: _ =>
          (Except.ok (Value.str (String.join (List.replicate n.toNat s))), st)
      | _ => (Except.error "bad argument #2 to rep (number expected)", st)
  | BName.opaqueFn tag =>
      (Except.error ("library function " ++ tag ++ " outside modelled subset"), st)

/-- Apply a binary operator (short-circuit `and`/`or` are handled before
this point). -/
def applyBinOp (op : BinOp) (v1 v2 : Value) : Except String Value :=
  match op with
  | BinOp.add =>
      match toNumberOpt v1, toNumberOpt v2 with
      | some a, some b => Except.ok (Value.num (a + b))
      | _, _ => Except.error ("attempt to perform arithmetic on a "
          ++ typeName (if (toNumberOpt v1).isNone then v1 else v2) ++ " value")
  | BinOp.sub =>
      match toNumberOpt v1, toNumberOpt v2 with
      | some a, some b => Except.ok (Value.num (a - b))
      | _, _ => Except.error ("attempt to perform arithmetic on a "
          ++ typeName (if (toNumberOpt v1).isNone then v1 else v2) ++ " value")
  | BinOp.mul =>
      match toNumberOpt v1, toNumberOpt v2 with
      | some a, some b => Except.ok (Value.num (a * b))
      | _, _ => Except.error ("attempt to perform arithmetic on a "
          ++ typeName (if (toNumberOpt v1).isNone then v1 else v2) ++ " value")
  | BinOp.lt =>
      match v1, v2 with
      | Value.num a, Value.num b => Except.ok (Value.boolean (a < b))
      | Value.str a, Value.str b => Except.ok (Value.boolean (a < b))
      | _, _ => Except.error ("attempt to compare " ++ typeName v1
          ++ " with " ++ typeName v2)
  | BinOp.le =>
      match v1, v2 with
      | Value.num a, Value.num b => Except.ok (Value.boolean (a ≤ b))
      | Value.str a, Value.str b => Except.ok (Value.boolean (a ≤ b))
      | _, _ => Except.error ("attempt to compare " ++ typeName v1
          ++ " with " ++ typeName v2)
  | BinOp.gt =>
      match v1, v2 with
      | Value.num a, Value.num b => Except.ok (Value.boolean (b < a))
      | Value.str a, Value.str b => Except.ok (Value.boolean (b < a))
      | _, _ => Except.error ("attempt to compare " ++ typeName v1
          ++ " with " ++ typeName v2)
  | BinOp.ge =>
      match v1, v2 with
      | Value.num a, Value.num b => Except.ok (Value.boolean (b ≤ a))
      | Value.str a, Value.str b => Except.ok (Value.boolean (b ≤ a))
      | _, _ => Except.error ("attempt to compare " ++ typeName v1
          ++ " with " ++ typeName v2)
  | BinOp.eq => Except.ok (Value.boolean (v1 = v2))
  | BinOp.ne => Except.ok (Value.boolean (v1 ≠ v2))
  | BinOp.land => Except.error "internal: land handled by evalExpr"
  | BinOp.lor => Except.error "internal: lor handled by evalExpr"

/-- The attribute names that `getattr` resolves on a Python `dict`:
its methods.  Any other key raises `AttributeError` through the lupa
wrapper. -/
def dictMethodNames : List String :=
  ["pop", "clear", "get", "update", "setdefault", "popitem", "keys",
   "values", "items", "copy"]

/-- Call a bound method of a wrapped choice dictionary.  `pop` and
`clear` mutate the caller-owned record in place (the modelled dicts hold
the one key `id`); `get` reads it; the remaining methods are outside the
modelled subset and fault, which keeps modelled successes a subset of
real ones. -/
def applyDictMethod (i : Nat) (name : String) (args : List Value) (st : MState) :
    Except String Value × MState :=
  match st.pyChoices.get? i with
  | none => (Except.error "IndexError: wrapped object out of range", st)
  | some c =>
      match name, args with
      | "pop", [Value.str k] =>
          if k = "id" then
            match c.id with
            | some v =>
                (Except.ok (Value.str v),
                 { st with pyChoices := setNth st.pyChoices i { id := none } })
            | none => (Except.error "KeyError: id", st)
          else (Except.error ("KeyError: " ++ k), st)
      | "clear", [] =>
          (Except.ok Value.nil,
           { st with pyChoices := setNth st.pyChoices i { id := none } })
      | "get", [Value.str k] =>
          if k = "id" then
            (Except.ok ((c.id).elim Value.nil Value.str), st)
          else (Except.ok Value.nil, st)
      | other, _ =>
          (Except.error ("dict method " ++ other ++ " outside modelled subset"), st)

/-- Call a value: host builtins and bound dict methods are callable in
the modelled fragment (scripts cannot define functions in the subset;
tables carry no `__call` metamethod; calling a dict wrapper itself
raises). -/
def applyCall (vf : Value) (vs : List Value) (st : MState) :
    Except String Value × MState :=
  match vf with
  | Value.builtin b => applyBuiltin b vs st
  | Value.pymethod i name => applyDictMethod i name vs st
  | v => (Except.error ("attempt to call a " ++ typeName v ++ " value"), st)

mutual

/-- Evaluate an expression.  The environment is read-only during
evaluation (no Lua expression assigns a variable); the store and the
print log thread through. -/
def evalExpr (env : Env) : Expr → MState → Except String Value × MState
  | Expr.lit v, st => (Except.ok v, st)
  | Expr.var x, st => (Except.ok ((lookupStr env x).getD Value.nil), st)
  | Expr.binop BinOp.land a b, st =>
      match evalExpr env a st with
      | (Except.error e, st') => (Except.error e, st')
      | (Except.ok v1, st') =>
          if truthy v1 then evalExpr env b st' else (Except.ok v1, st')
  | Expr.binop BinOp.lor a b, st =>
      match evalExpr env a st with
      | (Except.error e, st') => (Except.error e, st')
      | (Except.ok v1, st') =>
          if truthy v1 then (Except.ok v1, st') else evalExpr env b st'
  | Expr.binop op a b, st =>
      match evalExpr env a st with
      | (Except.error e, st') => (Except.error e, st')
      | (Except.ok v1, st') =>
          match evalExpr env b st' with
          | (Except.error e, st'') => (Except.error e, st'')
          | (Except.ok v2, st'') => (applyBinOp op v1 v2, st'')
  | Expr.index e k, st =>
      match evalExpr env e st with
      | (Except.error er, st') => (Except.error er, st')
      | (Except.ok v, st') =>
          match v with
          | Value.tableRef a => (Except.ok (st'.store.read a k), st')
          | Value.pyref i =>
              if dictMethodNames.contains k then
                (Except.ok (Value.pymethod i k), st')
              else
                (Except.error ("AttributeError: dict object has no attribute " ++ k),
                 st')
          | w => (Except.error ("attempt to index a " ++ typeName w ++ " value"), st')
  | Expr.call f args, st =>
      match evalExpr env f st with
      | (Except.error e, st') => (Except.error e, st')
      | (Except.ok vf, st') =>
          match evalArgs env args st' with
          | (Except.error e, st'') => (Except.error e, st'')
          | (Except.ok vs, st'') => applyCall vf vs st''

/-- Evaluate an argument list left to right. -/
def evalArgs (env : Env) : List Expr → MState → Except String (List Value) × MState
  | [], st => (Except.ok [], st)
  | e :: rest, st =>
      match evalExpr env e st with
      | (Except.error er, st') => (Except.error er, st')
      | (Except.ok v, st') =>
          match evalArgs env rest st' with
          | (Except.error er, st'') => (Except.error er, st'')
          | (Except.ok vs, st'') => (Except.ok (v :: vs), st'')

end

/-- Execute a statement.  On a Lua error the state already mutated is
kept, as with a real `pcall` (side effects before the fault persist). -/
def execStat : Stat → Env → MState → Except String Unit × Env × MState
  | Stat.skip, env, st => (Except.ok (), env, st)
  | Stat.seq a b, env, st =>
      match execStat a env st with
      | (Except.error e, env', st') => (Except.error e, env', st')
      | (Except.ok _, env', st') => execStat b env' st'
  | Stat.assign x e, env, st =>
      match evalExpr env e st with
      | (Except.error er, st') => (Except.error er, env, st')
      | (Except.ok v, st') => (Except.ok (), upsert env x v, st')
  | Stat.assignIndex t k e, env, st =>
      match evalExpr env t st with
      | (Except.error er, st') => (Except.error er, env, st')
      | (Except.ok vt, st') =>
          match evalExpr env e st' with
          | (Except.error er, st'') => (Except.error er, env, st'')
          | (Except.ok v, st'') =>
              match vt with
              | Value.tableRef a =>
                  (Except.ok (), env, { st'' with store := st''.store.write a k v })
              | Value.pyref _ =>
                  (Except.error "AttributeError: cannot set attribute on dict object",
                   env, st'')
              | w =>
                  (Except.error ("attempt to index a " ++ typeName w ++ " value"),
                   env, st'')
  | Stat.ifS c t e, env, st =>
      match evalExpr env c st with
      | (Except.error er, st') => (Except.error er, env, st')
      | (Except.ok v, st') =>
          if truthy v then execStat t env st' else execStat e env st'
  | Stat.callS f args, env, st =>
      match evalExpr env (Expr.call f args) st with
      | (Except.error er, st') => (Except.error er, env, st')
      | (Except.ok _, st') => (Except.ok (), env, st')

/-- Tokens of the modelled Lua fragment. -/
inductive Tok where
  | name (s : String)
  | numTok (n : Int)
  | strTok (s : String)
  | sym (s : String)
deriving DecidableEq, Repr

/-- Lua reserved words. -/
def luaKeywords : List String :=
  ["and", "break", "do", "else", "elseif", "end", "false", "for", "function",
   "goto", "if", "in", "local", "nil", "not", "or", "repeat", "return",
   "then", "true", "until", "while"]

def isIdentStart (c : Char) : Bool := c.isAlpha || c = '_'

def isIdentChar (c : Char) : Bool := c.isAlphanum || c = '_'

/-- Scan a string literal body up to the closing double quote (escape
sequences are outside the modelled subset). -/
def lexStr : List Char → Option (String × List Char)
  | [] => none
  | c :: rest =>
      if c = '"' then some ("", rest)
      else match lexStr rest with
           | none => none
           | some (s, r) => some (String.mk (c :: s.toList), r)

/-- Drop the remainder of a `--` comment line. -/
def dropLine : List Char → List Char
  | [] => []
  | c :: rest => if c = '\n' then rest else dropLine rest

/-- Tokenizer for the modelled fragment; stands for the lexical part of
Lua `load`. A character outside the fragment is a load-time error. -/
def tokenize : Nat → List Char → Except String (List Tok)
  | 0, _ => Except.error "lexer out of fuel"
  | _ + 1, [] => Except.ok []
  | fuel + 1, c :: rest =>
      if c = ' ' || c = '\t' || c = '\n' || c = '\r' then tokenize fuel rest
      else if c = '-' then
        match rest with
        | '-' :: r => tokenize fuel (dropLine r)
        | _ =>
            match tokenize fuel rest with
            | Except.error e => Except.error e
            | Except.ok ts => Except.ok (Tok.sym "-" :: ts)
      else if isIdentStart c then
        let span := (c :: rest).span isIdentChar
        match tokenize fuel span.2 with
        | Except.error e => Except.error e
        | Except.ok ts => Except.ok (Tok.name (String.mk span.1) :: ts)
      else if c.isDigit then
        let span := (c :: rest).span Char.isDigit
        let n : Int := span.1.foldl (fun acc d => acc * 10 + Int.ofNat (d.toNat - 48)) 0
        match tokenize fuel span.2 with
        | Except.error e => Except.error e
        | Except.ok ts => Except.ok (Tok.numTok n :: ts)
      else if c = '"' then
        match lexStr rest with
        | none => Except.error "unfinished string"
        | some (s, r) =>
            match tokenize fuel r with
            | Except.error e => Except.error e
            | Except.ok ts => Except.ok (Tok.strTok s :: ts)
      else if c = '=' || c = '<' || c = '>' || c = '~' then
        match rest with
        | '=' :: r =>
            match tokenize fuel r with
            | Except.error e => Except.error e
            | Except.ok ts => Except.ok (Tok.sym (String.mk [c, '=']) :: ts)
        | _ =>
            if c = '~' then Except.error "unexpected symbol near ~"
            else
              match tokenize fuel rest with
              | Except.error e => Except.error e
              | Except.ok ts => Except.ok (Tok.sym (String.mk [c]) :: ts)
      else if c = '+' || c = '*' || c = '(' || c = ')' || c = ',' || c = '.'
              || c = ';' || c = '[' || c = ']' then
        match tokenize fuel rest with
        | Except.error e => Except.error e
        | Except.ok ts => Except.ok (Tok.sym (String.mk [c]) :: ts)
      else Except.error ("unexpected symbol near " ++ String.mk [c])

mutual

/-- Primary expressions: literals, names, parenthesised expressions. -/
def parsePrimary : Nat → List Tok → Except String (Expr × List Tok)
  | 0, _ => Except.error "parser out of fuel"
  | _ + 1, [] => Except.error "unexpected symbol near eof"
  | fuel + 1, t :: ts =>
      match t with
      | Tok.numTok n => Except.ok (Expr.lit (Value.num n), ts)
      | Tok.strTok s => Except.ok (Expr.lit (Value.str s), ts)
      | Tok.name "nil" => Except.ok (Expr.lit Value.nil, ts)
      | Tok.name "true" => Except.ok (Expr.lit (Value.boolean true), ts)
      | Tok.name "false" => Except.ok (Expr.lit (Value.boolean false), ts)
      | Tok.name x =>
          if luaKeywords.contains x then
            Except.error ("unexpected symbol near " ++ x)
          else Except.ok (Expr.var x, ts)
      | Tok.sym "(" =>
          match parseExpr fuel ts with
          | Except.error e => Except.error e
          | Except.ok (e, ts') =>
              match ts' with
              | Tok.sym ")" :: ts'' => Except.ok (e, ts'')
              | _ => Except.error "closing parenthesis expected"
      | _ => Except.error "unexpected symbol"

/-- Postfix suffixes: field access `.k`, `["k"]`, and call argument
lists. -/
def parseSuffix : Nat → Expr → List Tok → Except String (Expr × List Tok)
  | 0, _, _ => Except.error "parser out of fuel"
  | _ + 1, e, [] => Except.ok (e, [])
  | fuel + 1, e, t :: ts =>
      match t with
      | Tok.sym "." =>
          match ts with
          | Tok.name k :: ts' =>
              if luaKeywords.contains k then Except.error ("unexpected symbol near " ++ k)
              else parseSuffix fuel (Expr.index e k) ts'
          | _ => Except.error "name expected after dot"
      | Tok.sym "[" =>
          match ts with
          | Tok.strTok k :: Tok.sym "]" :: ts' => parseSuffix fuel (Expr.index e k) ts'
          | Tok.numTok n :: Tok.sym "]" :: ts' =>
              parseSuffix fuel (Expr.index e (toString n)) ts'
          | _ => Except.error "string or number key expected in brackets"
      | Tok.sym "(" =>
          match ts with
          | Tok.sym ")" :: ts' => parseSuffix fuel (Expr.call e []) ts'
          | _ =>
              match parseArgs fuel ts with
              | Except.error er => Except.error er
              | Except.ok (args, ts') =>
                  match ts' with
                  | Tok.sym ")" :: ts'' => parseSuffix fuel (Expr.call e args) ts''
                  | _ => Except.error "closing parenthesis expected"
      | _ => Except.ok (e, t :: ts)

/-- Comma-separated argument expressions. -/
def parseArgs : Nat → List Tok → Except String (List Expr × List Tok)
  | 0, _ => Except.error "parser out of fuel"
  | fuel + 1, ts =>
      match parseExpr fuel ts with
      | Except.error e => Except.error e
      | Except.ok (e, ts') =>
          match ts' with
          | Tok.sym "," :: ts'' =>
              match parseArgs fuel ts'' with
              | Except.error er => Except.error er
              | Except.ok (es, ts''') => Except.ok (e :: es, ts''')
          | _ => Except.ok ([e], ts')

def parsePostfix : Nat → List Tok → Except String (Expr × List Tok)
  | 0, _ => Except.error "parser out of fuel"
  | fuel + 1, ts =>
      match parsePrimary fuel ts with
      | Except.error e => Except.error e
      | Except.ok (e, ts') => parseSuffix fuel e ts'

def parseMul : Nat → List Tok → Except String (Expr × List Tok)
  | 0, _ => Except.error "parser out of fuel"
  | fuel + 1, ts =>
      match parsePostfix fuel ts with
      | Except.error e => Except.error e
      | Except.ok (e, ts') => parseMulRest fuel e ts'

def parseMulRest : Nat → Expr → List Tok → Except String (Expr × List Tok)
  | 0, _, _ => Except.error "parser out of fuel"
  | fuel + 1, acc, ts =>
      match ts with
      | Tok.sym "*" :: ts' =>
          match parsePostfix fuel ts' with
          | Except.error e => Except.error e
          | Except.ok (e, ts'') => parseMulRest fuel (Expr.binop BinOp.mul acc e) ts''
      | _ => Except.ok (acc, ts)

def parseAdd : Nat → List Tok → Except String (Expr × List Tok)
  | 0, _ => Except.error "parser out of fuel"
  | fuel + 1, ts =>
      match parseMul fuel ts with
      | Except.error e => Except.error e
      | Except.ok (e, ts') => parseAddRest fuel e ts'

def parseAddRest : Nat → Expr → List Tok → Except String (Expr × List Tok)
  | 0, _, _ => Except.error "parser out of fuel"
  | fuel + 1, acc, ts =>
      match ts with
      | Tok.sym "+" :: ts' =>
          match parseMul fuel ts' with
          | Except.error e => Except.error e
          | Except.ok (e, ts'') => parseAddRest fuel (Expr.binop BinOp.add acc e) ts''
      | Tok.sym "-" :: ts' =>
          match parseMul fuel ts' with
          | Except.error e => Except.error e
          | Except.ok (e, ts'') => parseAddRest fuel (Expr.binop BinOp.sub acc e) ts''
      | _ => Except.ok (acc, ts)

def parseCmp : Nat → List Tok → Except String (Expr × List Tok)
  | 0, _ => Except.error "parser out of fuel"
  | fuel + 1, ts =>
      match parseAdd fuel ts with
      | Except.error e => Except.error e
      | Except.ok (e, ts') =>
          match ts' with
          | Tok.sym "<" :: ts'' =>
              match parseAdd fuel ts'' with
              | Except.error er => Except.error er
              | Except.ok (e2, ts''') => Except.ok (Expr.binop BinOp.lt e e2, ts''')
          | Tok.sym ">" :: ts'' =>
              match parseAdd fuel ts'' with
              | Except.error er => Except.error er
              | Except.ok (e2, ts''') => Except.ok (Expr.binop BinOp.gt e e2, ts''')
          | Tok.sym "<=" :: ts'' =>
              match parseAdd fuel ts'' with
              | Except.error er => Except.error er
              | Except.ok (e2, ts''') => Except.ok (Expr.binop BinOp.le e e2, ts''')
          | Tok.sym ">=" :: ts'' =>
              match parseAdd fuel ts'' with
              | Except.error er => Except.error er
              | Except.ok (e2, ts''') => Except.ok (Expr.binop BinOp.ge e e2, ts''')
          | Tok.sym "==" :: ts'' =>
              match parseAdd fuel ts'' with
              | Except.error er => Except.error er
              | Except.ok (e2, ts''') => Except.ok (Expr.binop BinOp.eq e e2, ts''')
          | Tok.sym "~=" :: ts'' =>
              match parseAdd fuel ts'' with
              | Except.error er => Except.error er
              | Except.ok (e2, ts''') => Except.ok (Expr.binop BinOp.ne e e2, ts''')
          | _ => Except.ok (e, ts')

def parseAnd : Nat → List Tok → Except String (Expr × List Tok)
  | 0, _ => Except.error "parser out of fuel"
  | fuel + 1, ts =>
      match parseCmp fuel ts with
      | Except.error e => Except.error e
      | Except.ok (e, ts') => parseAndRest fuel e ts'

def parseAndRest : Nat → Expr → List Tok → Except String (Expr × List Tok)
  | 0, _, _ => Except.error "parser out of fuel"
  | fuel + 1, acc, ts =>
      match ts with
      | Tok.name "and" :: ts' =>
          match parseCmp fuel ts' with
          | Except.error e => Except.error e
          | Except.ok (e, ts'') => parseAndRest fuel (Expr.binop BinOp.land acc e) ts''
      | _ => Except.ok (acc, ts)

def parseExpr : Nat → List Tok → Except String (Expr × List Tok)
  | 0, _ => Except.error "parser out of fuel"
  | fuel + 1, ts =>
      match parseAnd fuel ts with
      | Except.error e => Except.error e
      | Except.ok (e, ts') => parseOrRest fuel e ts'

def parseOrRest : Nat → Expr → List Tok → Except String (Expr × List Tok)
  | 0, _, _ => Except.error "parser out of fuel"
  | fuel + 1, acc, ts =>
      match ts with
      | Tok.name "or" :: ts' =>
          match parseAnd fuel ts' with
          | Except.error e => Except.error e
          | Except.ok (e, ts'') => parseOrRest fuel (Expr.binop BinOp.lor acc e) ts''
      | _ => Except.ok (acc, ts)

end

/-- Does this token end the current block without being consumed by it? -/
def blockEnder : Tok → Bool
  | Tok.name "end" => true
  | Tok.name "else" => true
  | Tok.name "elseif" => true
  | _ => false

mutual

/-- Parse a block: a sequence of statements up to `end`, `else`,
`elseif` or the end of input (none of which it consumes). -/
def parseBlock : Nat → List Tok → Except String (Stat × List Tok)
  | 0, _ => Except.error "parser out of fuel"
  | _ + 1, [] => Except.ok (Stat.skip, [])
  | fuel + 1, t :: ts =>
      if blockEnder t then Except.ok (Stat.skip, t :: ts)
      else if t = Tok.sym ";" then parseBlock fuel ts
      else
        match parseStat fuel (t :: ts) with
        | Except.error e => Except.error e
        | Except.ok (s, ts') =>
            match parseBlock fuel ts' with
            | Except.error e => Except.error e
            | Except.ok (rest, ts'') => Except.ok (Stat.seq s rest, ts'')

/-- Parse one statement: `if`, an assignment, or a call statement.
Constructs outside the modelled fragment (`while`, `for`, `function`,
`local`, `return`, ...) are load-time errors of the model. -/
def parseStat : Nat → List Tok → Except String (Stat × List Tok)
  | 0, _ => Except.error "parser out of fuel"
  | _ + 1, [] => Except.error "unexpected symbol near eof"
  | fuel + 1, t :: ts =>
      match t with
      | Tok.name "if" =>
          match parseExpr fuel ts with
          | Except.error e => Except.error e
          | Except.ok (c, ts') =>
              match ts' with
              | Tok.name "then" :: ts'' =>
                  match parseBlock fuel ts'' with
                  | Except.error e => Except.error e
                  | Except.ok (tBranch, ts₃) =>
                      match ts₃ with
                      | Tok.name "end" :: ts₄ =>
                          Except.ok (Stat.ifS c tBranch Stat.skip, ts₄)
                      | Tok.name "else" :: ts₄ =>
                          match parseBlock fuel ts₄ with
                          | Except.error e => Except.error e
                          | Except.ok (eBranch, ts₅) =>
                              match ts₅ with
                              | Tok.name "end" :: ts₆ =>
                                  Except.ok (Stat.ifS c tBranch eBranch, ts₆)
                              | _ => Except.error "end expected to close if"
                      | Tok.name "elseif" :: _ =>
                          Except.error "elseif outside modelled subset"
                      | _ => Except.error "end expected to close if"
              | _ => Except.error "then expected"
      | Tok.name x =>
          if luaKeywords.contains x then
            Except.error ("construct " ++ x ++ " outside modelled subset")
          else
            match parsePostfix fuel (t :: ts) with
            | Except.error e => Except.error e
            | Except.ok (e, ts') =>
                match ts' with
                | Tok.sym "=" :: ts'' =>
                    match parseExpr fuel ts'' with
                    | Except.error er => Except.error er
                    | Except.ok (rhs, ts₃) =>
                        match e with
                        | Expr.var v => Except.ok (Stat.assign v rhs, ts₃)
                        | Expr.index obj k => Except.ok (Stat.assignIndex obj k rhs, ts₃)
                        | _ => Except.error "syntax error near ="
                | _ =>
                    match e with
                    | Expr.call f args => Except.ok (Stat.callS f args, ts')
                    | _ => Except.error "syntax error: expression is not a statement"
      | _ => Except.error "unexpected symbol at statement start"

end

/-- The model of Lua `load(code, "user_script", "t", env)`: tokenize and
parse; a failure is a load-time (syntax) error and the chunk never runs. -/
def luaLoad (src : String) : Except String Stat :=
  match tokenize (src.length + 1) src.toList with
  | Except.error e => Except.error e
  | Except.ok toks =>
      match parseBlock (10 * (toks.length + 1)) toks with
      | Except.error e => Except.error e
      | Except.ok (s, []) => Except.ok s
      | Except.ok (_, _ :: _) => Except.error "end expected near eof"

/-- The `current_node_data` dictionary.  A `none` field models an absent
key, for which `dict.get` used by the source returns the default. -/
structure NodeData where
  url : Option String
  description : Option String
  choices : Option (List ChoiceRec)
deriving DecidableEq, Repr

/-- `LuaScriptSandbox._to_lua_safe_id`: replace every hyphen with an
underscore (`str.replace` with a one-character pattern is exactly a
character map). -/
def toLuaSafeId (originalId : String) : String :=
  String.mk (originalId.toList.map (fun c => if c = '-' then '_' else c))

/-- The injection loop of `execute` (step 2, choice flags): for each
choice, read `choice['id']` (raising `KeyError` when absent), record
`choice_map[safe_id] = real_id`, and set `choice_<safe_id> = true` in the
environment.  A later collision silently overwrites the map entry, as a
Python `dict` assignment does. -/
def injectChoices : List ChoiceRec → List (String × String) → Env →
    Except String (List (String × String) × Env)
  | [], cmap, env => Except.ok (cmap, env)
  | c :: rest, cmap, env =>
      match c.id with
      | none => Except.error "KeyError: 'id'"
      | some realId =>
          let safeId := toLuaSafeId realId
          injectChoices rest (upsert cmap safeId realId)
            (upsert env ("choice_" ++ safeId) (Value.boolean true))

/-- Contents of the runtime's `math` library table (functions outside the
modelled subset are absent; a script calling one faults in the model,
which keeps modelled successes a subset of real ones). -/
def mathTbl : Tbl :=
  [("abs", Value.builtin BName.mathAbs), ("floor", Value.builtin BName.mathFloor)]

/-- Contents of the runtime's `string` library table (same convention). -/
def stringTbl : Tbl :=
  [("len", Value.builtin BName.strLen), ("rep", Value.builtin BName.strRep)]

/-- Contents of the runtime's `table` library table (same convention:
named entries whose call is outside the subset fault). -/
def tableTbl : Tbl :=
  [("insert", Value.builtin (BName.opaqueFn "table.insert")),
   ("remove", Value.builtin (BName.opaqueFn "table.remove")),
   ("concat", Value.builtin (BName.opaqueFn "table.concat"))]

/-- The store of the freshly constructed `LuaRuntime` of `__init__`: the
shared `math`, `string` and `table` tables live at addresses 0, 1 and 2
and are never reallocated, only read and (by scripts) written. -/
def initStore : Store := ⟨[mathTbl, stringTbl, tableTbl]⟩

/-- The base table of step 1 of `execute` (`self.lua.eval("{ math = math,
... }")`): each entry aliases the runtime's shared global of the same
name; the library tables are aliased by reference, not copied. -/
def baseEnv : Env :=
  [("math", Value.tableRef 0), ("string", Value.tableRef 1),
   ("table", Value.tableRef 2), ("pairs", Value.builtin BName.pairs),
   ("ipairs", Value.builtin BName.ipairs), ("tonumber", Value.builtin BName.tonumber),
   ("tostring", Value.builtin BName.tostring), ("print", Value.builtin BName.print)]

/-- The `choices` table built by `self.lua.table_from(...)`: a fresh Lua
table whose entries (keyed by decimal position, standing for the array
part) wrap the Python choice dictionaries by reference. -/
def choicesTbl (cs : List ChoiceRec) : Tbl :=
  (List.range cs.length).map (fun i => (toString (i + 1), Value.pyref i))

/-- The record `execute` returns on success. -/
structure ExecResult where
  url : Value
  description : Value
  player_data : List (String × Value)
  choices_visibility : List (String × Value)
deriving DecidableEq, Repr

/-- What a call to `execute` does at the Python boundary: either an
uncaught exception escapes to the caller, or a value is returned
(`none` standing for Python `None`). -/
inductive PyOutcome where
  | raised (msg : String)
  | returned (r : Option ExecResult)
deriving DecidableEq, Repr

/-- Full account of one call to `execute`: the boundary outcome, the text
printed to stdout, the runtime store afterwards (it persists into the
next call on the same sandbox), and the state of the caller-owned choice
dictionaries of the node after the call (they are wrapped by reference,
so in-place mutation by a script is visible to the caller). -/
structure ExecOut where
  outcome : PyOutcome
  log : List String
  store : Store
  nodeChoices : List ChoiceRec
deriving DecidableEq, Repr

/-- Environment construction and injection: steps 1 and 2 of `execute`
up to and including the player-data loop (the choice-flag loop follows as
`injectChoices`). -/
def envAfterPlayer (node : NodeData) (player : List (String × Value))
    (choicesAddr : Nat) : Env :=
  player.foldl (fun e kv => upsert e kv.1 kv.2)
    (upsert (upsert (upsert baseEnv "url" (Value.str ((node.url).getD "")))
        "description" (Value.str ((node.description).getD "")))
      "choices" (Value.tableRef choicesAddr))

/-- Result extraction, step 4 of `execute`: one entry per input player
key, read back from the post-run environment (an absent key reads as
`nil`/`None`). -/
def extractPlayer (player : List (String × Value)) (env : Env) :
    List (String × Value) :=
  player.map (fun kv => (kv.1, (lookupStr env kv.1).getD Value.nil))

/-- Choice-visibility extraction, step 4 of `execute`: iterate the
per-call reverse table `choice_map` and republish each flag under the
original identifier. -/
def extractChoices (cmap : List (String × String)) (env : Env) :
    List (String × Value) :=
  cmap.map (fun p => (p.2, (lookupStr env ("choice_" ++ p.1)).getD Value.nil))

/-- `LuaScriptSandbox.execute`, translated line by line.

The store argument is the state of the sandbox's `LuaRuntime` before the
call (equal to `initStore` right after `__init__`); `node` and `player`
are the `current_node_data` and `player_data` given to `__init__`.

Steps 1 and 2 (environment construction and injection) run before the
`try` block: the `KeyError` raised by `choice['id']` on a record without
an `'id'` key escapes as an uncaught exception.  The `safe_wrapper`
(`load` + `pcall`) converts load failures and runtime faults into tagged
message strings, which `execute` prints before returning `None`; on
success the mutated environment is extracted into a fresh result
record. -/
def execute (store0 : Store) (node : NodeData) (player : List (String × Value))
    (userScript : String) : ExecOut :=
  match injectChoices ((node.choices).getD []) []
      (envAfterPlayer node player store0.tables.length) with
  | Except.error e =>
      { outcome := PyOutcome.raised e, log := [],
        store := store0.allocated (choicesTbl ((node.choices).getD [])),
        nodeChoices := (node.choices).getD [] }
  | Except.ok (cmap, env5) =>
      match luaLoad userScript with
      | Except.error err =>
          { outcome := PyOutcome.returned none,
            log := ["Syntax Error: " ++ err],
            store := store0.allocated (choicesTbl ((node.choices).getD [])),
            nodeChoices := (node.choices).getD [] }
      | Except.ok chunk =>
          match execStat chunk env5
              { store := store0.allocated (choicesTbl ((node.choices).getD [])),
                log := [], pyChoices := (node.choices).getD [] } with
          | (Except.error er, _, stE) =>
              { outcome := PyOutcome.returned none,
                log := stE.log ++ ["Runtime Error: " ++ er], store := stE.store,
                nodeChoices := stE.pyChoices }
          | (Except.ok _, env', st') =>
              { outcome := PyOutcome.returned (some
                  { url := (lookupStr env' "url").getD Value.nil,
                    description := (lookupStr env' "description").getD Value.nil,
                    player_data := extractPlayer player env',
                    choices_visibility := extractChoices cmap env' }),
                log := st'.log, store := st'.store, nodeChoices := st'.pyChoices }

/-- Whether a statement of the modelled fragment contains an assignment
to the environment variable `x`.  Field assignments write tables in the
store, never the environment, and the fragment has no `_ENV`, so this is
the only way a script changes an environment key. -/
def assigns : Stat → String → Bool
  | Stat.skip, _ => false
  | Stat.seq a b, x => assigns a x || assigns b x
  | Stat.assign y _, x => y == x
  | Stat.assignIndex _ _ _, _ => false
  | Stat.ifS _ t e, x => assigns t x || assigns e x
  | Stat.callS _ _, _ => false

/-- The environment-table flag name of a choice identifier. -/
def flagName (rid : String) : String := "choice_" ++ toLuaSafeId rid

/-- The keys the environment holds before the choice flags are injected:
the restricted standard-library subset plus `url`, `description`,
`choices`. -/
def baseKeys : List String :=
  ["math", "string", "table", "pairs", "ipairs", "tonumber", "tostring",
   "print", "url", "description", "choices"]

/-- The choice identifiers of a choices list that carry an `id` key. -/
def realIds (cs : List ChoiceRec) : List String :=
  cs.filterMap (fun c => c.id)

/-- The mangled forms of the identifiers of a choices list. -/
def mangledIds (cs : List ChoiceRec) : List String :=
  cs.filterMap (fun c => c.id.map toLuaSafeId)

/-- `k` is the flag name of some choice of the list (stated as a list
membership, so it is decidable at concrete inputs). -/
abbrev isFlagOf (cs : List ChoiceRec) (k : String) : Prop :=
  k ∈ (realIds cs).map flagName

/-- The two choice identifiers of the worked example of the spec. -/
def uuidStay : String := "52cd4b74-08d2-4709-8804-e6fa6deebe36"

def uuidRun : String := "3da81c9d-67bc-4419-ae5a-082c388a6d6d"

/-- The two-choice example node of the spec and of the source test
block. -/
def exampleNode : NodeData :=
  { url := some "https://forest.com", description := some "The trees whisper.",
    choices := some [{ id := some uuidStay }, { id := some uuidRun }] }

def examplePlayer : List (String × Value) := [("energy", Value.num 20)]

/-- The conditional-visibility script of the spec. -/
def conditionalScript : String :=
  "energy = energy + 10\nif energy > 25 then\n  choice_3da81c9d_67bc_4419_ae5a_082c388a6d6d = false\nend"

/-- A node whose two distinct choice identifiers mangle to the same safe
name. -/
def collisionNode : NodeData :=
  { url := none, description := none,
    choices := some [{ id := some "a-b" }, { id := some "a_b" }] }

/-- A node one of whose choice records lacks the `id` key. -/
def missingIdNode : NodeData :=
  { url := none, description := none, choices := some [{ id := none }] }

/-- A script that reads and then writes a field of the shared `math`
library table: the write survives the call and changes the result of the
next one. -/
def leakScript : String := "if math.c then energy = 99 end\nmath.c = true"

/-- A node with one choice whose flag name collides with a player key. -/
def clobberNode : NodeData :=
  { url := none, description := none, choices := some [{ id := some "a" }] }

def clobberPlayer : List (String × Value) := [("choice_a", Value.num 5)]

/-- Looking a key up right after writing it yields the written value. -/
theorem lookup_upsert_self {α : Type} (l : List (String × α)) (k : String) (v : α) :
    lookupStr (upsert l k v) k = some v := by
  induction l with
  | nil => simp [upsert, lookupStr]
  | cons h t ih =>
      by_cases hk : h.1 = k
      · simp [upsert, hk, lookupStr]
      · simpa [upsert, hk, lookupStr] using ih

/-- Writing one key leaves every other key unchanged. -/
theorem lookup_upsert_ne {α : Type} (l : List (String × α)) (k' k : String) (v : α)
    (h : k' ≠ k) : lookupStr (upsert l k' v) k = lookupStr l k := by
  induction l with
  | nil => simp [upsert, lookupStr, h]
  | cons hd t ih =>
      by_cases hk : hd.1 = k'
      · simp [upsert, hk, lookupStr, h]
      · simp [upsert, hk, lookupStr, ih]

/-- A key is present exactly when it is among the stored keys. -/
theorem lookup_isSome_iff {α : Type} (l : List (String × α)) (k : String) :
    (lookupStr l k).isSome ↔ k ∈ l.map Prod.fst := by
  induction l with
  | nil => simp [lookupStr]
  | cons hd t ih =>
      by_cases hk : hd.1 = k
      · simp [lookupStr, hk]
      · simp [lookupStr, hk, ih, Ne.symm hk]

/-- Presence after a write: the written key, or what was present before. -/
theorem lookup_upsert_isSome {α : Type} (l : List (String × α)) (k' k : String) (v : α) :
    (lookupStr (upsert l k' v) k).isSome ↔ k = k' ∨ (lookupStr l k).isSome := by
  by_cases h : k' = k
  · subst h; simp [lookup_upsert_self]
  · simp [lookup_upsert_ne l k' k v h, Ne.symm h]

/-- Writing an absent key appends it. -/
theorem upsert_notmem {α : Type} (l : List (String × α)) (k : String) (v : α)
    (h : lookupStr l k = none) : upsert l k v = l ++ [(k, v)] := by
  induction l with
  | nil => simp [upsert]
  | cons hd t ih =>
      by_cases hk : hd.1 = k
      · simp [lookupStr, hk] at h
      · simp [lookupStr, hk] at h
        simp [upsert, hk, ih h]

/-- Writing the same key twice keeps only the second value. -/
theorem upsert_upsert_same {α : Type} (l : List (String × α)) (k : String) (v w : α) :
    upsert (upsert l k v) k w = upsert l k w := by
  induction l with
  | nil => simp [upsert]
  | cons hd t ih =>
      by_cases hk : hd.1 = k
      · simp [upsert, hk]
      · simp [upsert, hk, ih]

/-- The player-injection fold leaves keys outside the player list
unchanged. -/
theorem lookup_foldl_notmem (l : List (String × Value)) (e : Env) (k : String)
    (h : k ∉ l.map Prod.fst) :
    lookupStr (l.foldl (fun e kv => upsert e kv.1 kv.2) e) k = lookupStr e k := by
  induction l generalizing e with
  | nil => rfl
  | cons hd t ih =>
      simp only [List.map_cons, List.mem_cons] at h
      push_neg at h
      simp only [List.foldl_cons]
      rw [ih (upsert e hd.1 hd.2) h.2, lookup_upsert_ne _ _ _ _ (fun he => h.1 he.symm)]

/-- With distinct keys, the player-injection fold stores each pair as
given. -/
theorem lookup_foldl_mem_nodup (l : List (String × Value)) (e : Env) (k : String)
    (v : Value) (hnd : (l.map Prod.fst).Nodup) (hm : (k, v) ∈ l) :
    lookupStr (l.foldl (fun e kv => upsert e kv.1 kv.2) e) k = some v := by
  induction l generalizing e with
  | nil => cases hm
  | cons hd t ih =>
      simp only [List.map_cons, List.nodup_cons] at hnd
      rcases List.mem_cons.mp hm with hh | ht
      · subst hh
        simp only [List.foldl_cons]
        rw [lookup_foldl_notmem _ _ _ hnd.1, lookup_upsert_self]
      · exact List.foldl_cons _ _ ▸ ih (upsert e hd.1 hd.2) hnd.2 ht

/-- Presence after the player-injection fold. -/
theorem lookup_foldl_isSome (l : List (String × Value)) (e : Env) (k : String) :
    (lookupStr (l.foldl (fun e kv => upsert e kv.1 kv.2) e) k).isSome ↔
      (lookupStr e k).isSome ∨ k ∈ l.map Prod.fst := by
  induction l generalizing e with
  | nil => simp
  | cons hd t ih =>
      simp only [List.foldl_cons, List.map_cons, List.mem_cons]
      rw [ih (upsert e hd.1 hd.2), lookup_upsert_isSome]
      tauto

/-- Entry lookup in a list with distinct keys. -/
theorem lookup_of_mem_nodup {α : Type} (l : List (String × α)) (k : String) (v : α)
    (hnd : (l.map Prod.fst).Nodup) (hm : (k, v) ∈ l) : lookupStr l k = some v := by
  induction l with
  | nil => cases hm
  | cons hd t ih =>
      simp only [List.map_cons, List.nodup_cons] at hnd
      rcases List.mem_cons.mp hm with hh | ht
      · subst hh; simp [lookupStr]
      · have hne : hd.1 ≠ k := by
          intro he
          exact hnd.1 (he ▸ (List.mem_map.mpr ⟨(k, v), ht, rfl⟩))
        simp [lookupStr, hne, ih hnd.2 ht]

/-- The choice-flag injection succeeds exactly when every choice record
carries an `id` key. -/
theorem injectChoices_ok (cs : List ChoiceRec) (m : List (String × String)) (e : Env)
    (h : ∀ c ∈ cs, (c.id).isSome) :
    ∃ p, injectChoices cs m e = Except.ok p := by
  induction cs generalizing m e with
  | nil => exact ⟨(m, e), rfl⟩
  | cons c t ih =>
      obtain ⟨rid, hrid⟩ := Option.isSome_iff_exists.mp (h c (List.mem_cons_self c t))
      obtain ⟨p, hp⟩ := ih (upsert m (toLuaSafeId rid) rid)
        (upsert e ("choice_" ++ toLuaSafeId rid) (Value.boolean true))
        (fun c hc => h c (List.mem_cons_of_mem _ hc))
      exact ⟨p, by simp [injectChoices, hrid, hp]⟩

/-- Flag injection writes only the value `true`, so a key already bound
to `true` stays bound to `true`. -/
theorem inject_true_stable (cs : List ChoiceRec) (m : List (String × String)) (e : Env)
    (m' : List (String × String)) (e' : Env) (k : String)
    (hinj : injectChoices cs m e = Except.ok (m', e'))
    (h : lookupStr e k = some (Value.boolean true)) :
    lookupStr e' k = some (Value.boolean true) := by
  induction cs generalizing m e with
  | nil =>
      simp only [injectChoices, Except.ok.injEq, Prod.mk.injEq] at hinj
      rw [← hinj.2]; exact h
  | cons c t ih =>
      match hid : c.id with
      | none => simp [injectChoices, hid] at hinj
      | some rid =>
          simp only [injectChoices, hid] at hinj
          refine ih _ _ hinj ?_
          by_cases hk : ("choice_" ++ toLuaSafeId rid) = k
          · rw [← hk] at h ⊢; exact lookup_upsert_self _ _ _
          · rw [lookup_upsert_ne _ _ _ _ hk]; exact h

/-- After flag injection, every choice with an `id` has its flag bound
to `true` in the environment. -/
theorem inject_flag_true (cs : List ChoiceRec) (m : List (String × String)) (e : Env)
    (m' : List (String × String)) (e' : Env)
    (hinj : injectChoices cs m e = Except.ok (m', e'))
    (c : ChoiceRec) (hc : c ∈ cs) (rid : String) (hid : c.id = some rid) :
    lookupStr e' (flagName rid) = some (Value.boolean true) := by
  induction cs generalizing m e with
  | nil => cases hc
  | cons c0 t ih =>
      match hid0 : c0.id with
      | none => simp [injectChoices, hid0] at hinj
      | some rid0 =>
          simp only [injectChoices, hid0] at hinj
          rcases List.mem_cons.mp hc with hh | ht
          · subst hh
            rw [hid0] at hid
            cases hid
            refine inject_true_stable _ _ _ _ _ _ hinj ?_
            exact lookup_upsert_self _ _ _
          · exact ih _ _ hinj ht

/-- Flag injection leaves every non-flag key unchanged. -/
theorem inject_nonflag (cs : List ChoiceRec) (m : List (String × String)) (e : Env)
    (m' : List (String × String)) (e' : Env) (k : String)
    (hinj : injectChoices cs m e = Except.ok (m', e'))
    (h : ∀ c ∈ cs, ∀ rid, c.id = some rid → k ≠ flagName rid) :
    lookupStr e' k = lookupStr e k := by
  induction cs generalizing m e with
  | nil =>
      simp only [injectChoices, Except.ok.injEq, Prod.mk.injEq] at hinj
      rw [← hinj.2]
  | cons c0 t ih =>
      match hid0 : c0.id with
      | none => simp [injectChoices, hid0] at hinj
      | some rid0 =>
          simp only [injectChoices, hid0] at hinj
          rw [ih _ _ hinj (fun c hc => h c (List.mem_cons_of_mem _ hc))]
          exact lookup_upsert_ne _ _ _ _
            (fun he => h c0 (List.mem_cons_self c0 t) rid0 hid0 he.symm)

/-- Presence after flag injection: a flag of the node, or what was
present before. -/
theorem inject_isSome (cs : List ChoiceRec) (m : List (String × String)) (e : Env)
    (m' : List (String × String)) (e' : Env) (k : String)
    (hinj : injectChoices cs m e = Except.ok (m', e')) :
    (lookupStr e' k).isSome ↔
      (lookupStr e k).isSome ∨ ∃ c ∈ cs, ∃ rid, c.id = some rid ∧ k = flagName rid := by
  induction cs generalizing m e with
  | nil =>
      simp only [injectChoices, Except.ok.injEq, Prod.mk.injEq] at hinj
      rw [← hinj.2]
      simp
  | cons c0 t ih =>
      match hid0 : c0.id with
      | none => simp [injectChoices, hid0] at hinj
      | some rid0 =>
          simp only [injectChoices, hid0] at hinj
          rw [ih _ _ hinj, lookup_upsert_isSome]
          constructor
          · rintro ((hk | hs) | hf)
            · exact Or.inr ⟨c0, List.mem_cons_self c0 t, rid0, hid0, hk⟩
            · exact Or.inl hs
            · obtain ⟨c, hc, rid, hid, hk⟩ := hf
              exact Or.inr ⟨c, List.mem_cons_of_mem _ hc, rid, hid, hk⟩
          · rintro (hs | ⟨c, hc, rid, hid, hk⟩)
            · exact Or.inl (Or.inr hs)
            · rcases List.mem_cons.mp hc with hh | ht
              · subst hh
                rw [hid0] at hid
                cases hid
                exact Or.inl (Or.inl hk)
              · exact Or.inr ⟨c, ht, rid, hid, hk⟩

/-- Flag injection leaves reverse-table keys outside the mangled
identifiers unchanged. -/
theorem inject_cmap_stable (cs : List ChoiceRec) (m : List (String × String)) (e : Env)
    (m' : List (String × String)) (e' : Env) (k : String)
    (hinj : injectChoices cs m e = Except.ok (m', e'))
    (h : ∀ c ∈ cs, ∀ rid, c.id = some rid → toLuaSafeId rid ≠ k) :
    lookupStr m' k = lookupStr m k := by
  induction cs generalizing m e with
  | nil =>
      simp only [injectChoices, Except.ok.injEq, Prod.mk.injEq] at hinj
      rw [← hinj.1]
  | cons c0 t ih =>
      match hid0 : c0.id with
      | none => simp [injectChoices, hid0] at hinj
      | some rid0 =>
          simp only [injectChoices, hid0] at hinj
          rw [ih _ _ hinj (fun c hc => h c (List.mem_cons_of_mem _ hc))]
          exact lookup_upsert_ne _ _ _ _ (h c0 (List.mem_cons_self c0 t) rid0 hid0)

/-- A present identifier contributes its mangled form to the list. -/
theorem mem_mangledIds (cs : List ChoiceRec) (c : ChoiceRec) (rid : String)
    (hc : c ∈ cs) (hid : c.id = some rid) : toLuaSafeId rid ∈ mangledIds cs := by
  exact List.mem_filterMap.mpr ⟨c, hc, by simp [hid]⟩

/-- With collision-free mangling, the reverse table sends each safe name
back to its original identifier. -/
theorem inject_cmap_lookup (cs : List ChoiceRec) (m : List (String × String)) (e : Env)
    (m' : List (String × String)) (e' : Env)
    (hinj : injectChoices cs m e = Except.ok (m', e'))
    (hnd : (mangledIds cs).Nodup)
    (c : ChoiceRec) (hc : c ∈ cs) (rid : String) (hid : c.id = some rid) :
    lookupStr m' (toLuaSafeId rid) = some rid := by
  induction cs generalizing m e with
  | nil => cases hc
  | cons c0 t ih =>
      match hid0 : c0.id with
      | none => simp [injectChoices, hid0] at hinj
      | some rid0 =>
          simp only [injectChoices, hid0] at hinj
          have hmt : mangledIds (c0 :: t) = toLuaSafeId rid0 :: mangledIds t := by
            simp [mangledIds, hid0]
          rw [hmt] at hnd
          rcases List.mem_cons.mp hc with hh | ht
          · subst hh
            rw [hid0] at hid
            cases hid
            rw [inject_cmap_stable _ _ _ _ _ _ hinj
              (fun c hct rid' hid' he =>
                (List.nodup_cons.mp hnd).1
                  (by rw [← he]; exact mem_mangledIds t c rid' hct hid'))]
            exact lookup_upsert_self _ _ _
          · exact ih _ _ hinj (List.nodup_cons.mp hnd).2 ht

/-- With collision-free mangling and a reverse table disjoint from the
incoming mangled identifiers, injection appends one reverse-table pair
per choice, in order. -/
theorem inject_cmap_list (cs : List ChoiceRec) (m : List (String × String)) (e : Env)
    (m' : List (String × String)) (e' : Env)
    (hinj : injectChoices cs m e = Except.ok (m', e'))
    (hnd : (mangledIds cs).Nodup)
    (hdisj : ∀ s ∈ mangledIds cs, lookupStr m s = none) :
    m' = m ++ cs.filterMap (fun c => c.id.map (fun rid => (toLuaSafeId rid, rid))) := by
  induction cs generalizing m e with
  | nil =>
      simp only [injectChoices, Except.ok.injEq, Prod.mk.injEq] at hinj
      simp [← hinj.1]
  | cons c0 t ih =>
      match hid0 : c0.id with
      | none => simp [injectChoices, hid0] at hinj
      | some rid0 =>
          simp only [injectChoices, hid0] at hinj
          have hmt : mangledIds (c0 :: t) = toLuaSafeId rid0 :: mangledIds t := by
            simp [mangledIds, hid0]
          rw [hmt] at hnd hdisj
          have hm0 : lookupStr m (toLuaSafeId rid0) = none :=
            hdisj _ (List.mem_cons_self _ _)
          have hup : upsert m (toLuaSafeId rid0) rid0 = m ++ [(toLuaSafeId rid0, rid0)] :=
            upsert_notmem _ _ _ hm0
          have hdisj' : ∀ s ∈ mangledIds t,
              lookupStr (upsert m (toLuaSafeId rid0) rid0) s = none := by
            intro s hs
            rw [lookup_upsert_ne _ _ _ _
              (fun he => (List.nodup_cons.mp hnd).1 (by rw [he]; exact hs))]
            exact hdisj s (List.mem_cons_of_mem _ hs)
          rw [ih _ _ hinj (List.nodup_cons.mp hnd).2 hdisj', hup]
          simp [hid0]

/-- The mangled identifiers are the identifiers in use, mangled. -/
theorem mangledIds_eq_map (cs : List ChoiceRec) :
    mangledIds cs = (realIds cs).map toLuaSafeId := by
  simp [mangledIds, realIds, List.map_filterMap]

/-- Frame property of the interpreter: a statement that contains no
assignment to `x` leaves the environment binding of `x` unchanged (field
assignments write store tables, and expression evaluation never writes
the environment at all, by the shape of `evalExpr`). -/
theorem execStat_frame (s : Stat) (x : String) :
    ∀ env st r env' st', execStat s env st = (r, env', st') →
      assigns s x = false → lookupStr env' x = lookupStr env x := by
  induction s with
  | skip =>
      intro env st r env' st' h _
      simp only [execStat] at h
      cases h; rfl
  | seq a b iha ihb =>
      intro env st r env' st' h ha
      simp only [assigns, Bool.or_eq_false_iff] at ha
      simp only [execStat] at h
      rcases heq : execStat a env st with ⟨r1, env1, st1⟩
      rw [heq] at h
      cases r1 with
      | error e =>
          cases h
          exact iha env st _ _ _ heq ha.1
      | ok u =>
          cases u
          rw [ihb env1 st1 r env' st' h ha.2, iha env st _ _ _ heq ha.1]
  | assign y e =>
      intro env st r env' st' h ha
      simp only [assigns, beq_eq_false_iff_ne] at ha
      simp only [execStat] at h
      rcases heq : evalExpr env e st with ⟨rv, st1⟩
      rw [heq] at h
      cases rv with
      | error er => cases h; rfl
      | ok v =>
          cases h
          exact lookup_upsert_ne _ _ _ _ ha
  | assignIndex t k e =>
      intro env st r env' st' h _
      simp only [execStat] at h
      split at h
      · cases h; rfl
      · split at h
        · cases h; rfl
        · split at h <;> (cases h; rfl)
  | ifS c t e iht ihe =>
      intro env st r env' st' h ha
      simp only [assigns, Bool.or_eq_false_iff] at ha
      simp only [execStat] at h
      split at h
      · cases h; rfl
      · split at h
        · exact iht _ _ _ _ _ h ha.1
        · exact ihe _ _ _ _ _ h ha.2
  | callS f args =>
      intro env st r env' st' h _
      simp only [execStat] at h
      rcases heq : evalExpr env (Expr.call f args) st with ⟨rv, st1⟩
      rw [heq] at h
      cases rv with
      | error er => cases h; rfl
      | ok v => cases h; rfl

/-- Calling a name bound to nothing in the environment faults at run
time, whatever the arguments do. -/
theorem evalExpr_call_missing (env : Env) (g : String) (args : List Expr) (st : MState)
    (h : lookupStr env g = none) :
    ∃ er st', evalExpr env (Expr.call (Expr.var g) args) st = (Except.error er, st') := by
  rcases heq : evalArgs env args st with ⟨ra, st1⟩
  cases ra with
  | error er => exact ⟨er, st1, by simp [evalExpr, h, heq]⟩
  | ok vs =>
      exact ⟨"attempt to call a nil value", st1,
        by simp [evalExpr, h, heq, applyCall, typeName]⟩

/-- Indexing through a name bound to nothing faults at run time, so a
call through it (such as `io.open(...)`) faults too. -/
theorem evalExpr_call_index_missing (env : Env) (g k : String) (args : List Expr)
    (st : MState) (h : lookupStr env g = none) :
    evalExpr env (Expr.call (Expr.index (Expr.var g) k) args) st =
      (Except.error "attempt to index a nil value", st) := by
  simp [evalExpr, h, typeName]

/-- A faulting call expression makes its call statement fault. -/
theorem execStat_callS_err (env : Env) (f : Expr) (args : List Expr) (st : MState)
    (er : String) (st' : MState)
    (h : evalExpr env (Expr.call f args) st = (Except.error er, st')) :
    execStat (Stat.callS f args) env st = (Except.error er, env, st') := by
  simp [execStat, h]

/-- A faulting first statement makes the whole sequence fault. -/
theorem execStat_seq_err (a b : Stat) (env : Env) (st : MState) (er : String)
    (env' : Env) (st' : MState)
    (h : execStat a env st = (Except.error er, env', st')) :
    execStat (Stat.seq a b) env st = (Except.error er, env', st') := by
  simp [execStat, h]

/-- Presence in the environment after `url`, `description`, `choices`
injection: exactly the base keys. -/
theorem env3_isSome (node : NodeData) (a : Nat) (k : String) :
    (lookupStr (upsert (upsert (upsert baseEnv "url" (Value.str ((node.url).getD "")))
        "description" (Value.str ((node.description).getD "")))
      "choices" (Value.tableRef a)) k).isSome ↔ k ∈ baseKeys := by
  rw [lookup_upsert_isSome, lookup_upsert_isSome, lookup_upsert_isSome, lookup_isSome_iff]
  simp only [baseEnv, baseKeys, List.map_cons, List.map_nil, List.mem_cons,
    List.not_mem_nil]
  tauto

/-- Presence in the environment after player injection: the base keys
and the player keys. -/
theorem envAfterPlayer_isSome (node : NodeData) (player : List (String × Value))
    (a : Nat) (k : String) :
    (lookupStr (envAfterPlayer node player a) k).isSome ↔
      k ∈ baseKeys ∨ k ∈ player.map Prod.fst := by
  unfold envAfterPlayer
  rw [lookup_foldl_isSome, env3_isSome]

/-- Player values survive into the injected environment (the player loop
runs after `url`, `description` and `choices` are set, so a player entry
wins even against those keys). -/
theorem envAfterPlayer_val (node : NodeData) (player : List (String × Value))
    (a : Nat) (k : String) (v : Value) (hnd : (player.map Prod.fst).Nodup)
    (hm : (k, v) ∈ player) :
    lookupStr (envAfterPlayer node player a) k = some v := by
  unfold envAfterPlayer
  exact lookup_foldl_mem_nodup _ _ _ _ hnd hm

/-- Inversion of a successful `execute`: the choice flags were injected,
the script loaded and ran without fault, and the result is the fresh
extraction of the final environment through the per-call reverse
table. -/
theorem execute_success_inv (store0 : Store) (node : NodeData)
    (player : List (String × Value)) (src : String) (r : ExecResult)
    (h : (execute store0 node player src).outcome = PyOutcome.returned (some r)) :
    ∃ cmap env5 chunk env' st',
      injectChoices ((node.choices).getD []) []
          (envAfterPlayer node player store0.tables.length) = Except.ok (cmap, env5) ∧
      luaLoad src = Except.ok chunk ∧
      execStat chunk env5
          { store := store0.allocated (choicesTbl ((node.choices).getD [])),
            log := [], pyChoices := (node.choices).getD [] } =
        (Except.ok (), env', st') ∧
      r = { url := (lookupStr env' "url").getD Value.nil,
            description := (lookupStr env' "description").getD Value.nil,
            player_data := extractPlayer player env',
            choices_visibility := extractChoices cmap env' } := by
  simp only [execute] at h
  split at h
  next e heq => simp at h
  next cmap env5 heq =>
    split at h
    next err heq2 => simp at h
    next chunk heq2 =>
      split at h
      next er efst stE heq3 => simp at h
      next u env' st' heq3 =>
        cases u
        simp only [PyOutcome.returned.injEq, Option.some.injEq] at h
        exact ⟨cmap, env5, chunk, env', st', heq, heq2, heq3, h.symm⟩

/-- The membership form of `isFlagOf` unfolded to its witnesses. -/
theorem isFlagOf_iff (cs : List ChoiceRec) (k : String) :
    isFlagOf cs k ↔ ∃ c ∈ cs, ∃ rid, c.id = some rid ∧ k = flagName rid := by
  simp only [isFlagOf, realIds, List.mem_map, List.mem_filterMap]
  constructor
  · rintro ⟨rid, ⟨c, hc, hid⟩, hk⟩
    exact ⟨c, hc, rid, hid, hk.symm⟩
  · rintro ⟨c, hc, rid, hid, hk⟩
    exact ⟨rid, ⟨c, hc, hid⟩, hk.symm⟩

/-- Presence in the fully injected sandbox environment: exactly the
restricted base bindings, the player keys and the choice-flag names. -/
theorem env5_isSome (node : NodeData) (player : List (String × Value)) (a : Nat)
    (cmap : List (String × String)) (env5 : Env) (k : String)
    (hinj : injectChoices ((node.choices).getD []) [] (envAfterPlayer node player a) =
      Except.ok (cmap, env5)) :
    (lookupStr env5 k).isSome ↔
      k ∈ baseKeys ∨ k ∈ player.map Prod.fst ∨ isFlagOf ((node.choices).getD []) k := by
  rw [inject_isSome _ _ _ _ _ _ hinj, envAfterPlayer_isSome, isFlagOf_iff]
  tauto

/-- Extraction keeps the player keys, in order. -/
theorem extractPlayer_keys (player : List (String × Value)) (env : Env) :
    (extractPlayer player env).map Prod.fst = player.map Prod.fst := by
  simp [extractPlayer, List.map_map]

/-- Every input player key has an entry in the extracted mapping. -/
theorem extractPlayer_isSome (player : List (String × Value)) (env : Env) (k : String)
    (hk : k ∈ player.map Prod.fst) :
    (lookupStr (extractPlayer player env) k).isSome := by
  rw [lookup_isSome_iff, extractPlayer_keys]
  exact hk

/-- With distinct player keys, the extracted value of a key is the
post-run environment value of that key. -/
theorem lookup_extractPlayer (player : List (String × Value)) (env : Env)
    (k : String) (v : Value) (hnd : (player.map Prod.fst).Nodup)
    (hm : (k, v) ∈ player) :
    lookupStr (extractPlayer player env) k = some ((lookupStr env k).getD Value.nil) := by
  refine lookup_of_mem_nodup _ _ _ ?_ ?_
  · rw [extractPlayer_keys]
    exact hnd
  · exact List.mem_map.mpr ⟨(k, v), hm, rfl⟩

/-- C3: given the two-choice node, `playerData = {"energy": 20}` and the
conditional script of the spec, `execute` succeeds with `energy == 30`,
the Run choice invisible and the Stay choice visible. -/
theorem c3_conditional_visibility :
    (execute initStore exampleNode examplePlayer conditionalScript).outcome =
      PyOutcome.returned (some
        { url := Value.str "https://forest.com",
          description := Value.str "The trees whisper.",
          player_data := [("energy", Value.num 30)],
          choices_visibility :=
            [(uuidStay, Value.boolean true), (uuidRun, Value.boolean false)] }) := by
  decide

/-- C1, counterexample: on a node one of whose choice records lacks the
`id` key, the `KeyError` raised by `choice['id']` in the injection loop
(which runs before the `try` block) escapes `execute` as an uncaught
exception instead of being returned as a value. -/
theorem c1_counterexample :
    (execute initStore missingIdNode [] "").outcome =
      PyOutcome.raised "KeyError: 'id'" := by
  decide

/-- C6, counterexample: the value `execute` returns on failure is `None`
in every case — a syntax-failing script and a runtime-failing script
return the very same untagged value, so the returned value carries no
message and does not let the caller distinguish the failure kinds. -/
theorem c6_counterexample :
    (execute initStore exampleNode examplePlayer "if true then").outcome =
        PyOutcome.returned none ∧
      (execute initStore exampleNode examplePlayer "x()").outcome =
        PyOutcome.returned none := by
  constructor
  · decide
  · decide

/-- C6 (amended): whenever `execute` fails by returning `None` — a
value carrying no tag, no message and no `player_data` — it has printed
exactly one tagged human-readable message, and the tag distinguishes
the failure kind: `Syntax Error: ...` when the script failed to load
(the script never ran and nothing else was printed), or
`Runtime Error: ...` as the last line when the script faulted during
execution.  Host-level failures of the setup stage are not converted to
a result at all but raise (see C1); the `Sandbox Crash` print guards
only the wrapper call, which no input of the modelled space makes
fail. -/
theorem c6_failure_tagged (store0 : Store) (node : NodeData)
    (player : List (String × Value)) (src : String)
    (h : (execute store0 node player src).outcome = PyOutcome.returned none) :
    (∃ er, luaLoad src = Except.error er ∧
        (execute store0 node player src).log = ["Syntax Error: " ++ er]) ∨
      (∃ chunk er pre, luaLoad src = Except.ok chunk ∧
        (execute store0 node player src).log = pre ++ ["Runtime Error: " ++ er]) := by
  rcases hinj : injectChoices ((node.choices).getD []) []
      (envAfterPlayer node player store0.tables.length) with er | p
  · have hout : (execute store0 node player src).outcome = PyOutcome.raised er := by
      simp only [execute, hinj]
    rw [hout] at h
    cases h
  · obtain ⟨cmap, env5⟩ := p
    rcases hload : luaLoad src with er | chunk
    · refine Or.inl ⟨er, rfl, ?_⟩
      simp only [execute, hinj, hload]
    · rcases hex : execStat chunk env5
          { store := store0.allocated (choicesTbl ((node.choices).getD [])),
            log := [], pyChoices := (node.choices).getD [] } with ⟨re, env', st'⟩
      cases re with
      | error e =>
          refine Or.inr ⟨chunk, e, st'.log, rfl, ?_⟩
          simp only [execute, hinj, hload, hex]
      | ok u =>
          cases u
          have hout : (execute store0 node player src).outcome =
              PyOutcome.returned (some
                { url := (lookupStr env' "url").getD Value.nil,
                  description := (lookupStr env' "description").getD Value.nil,
                  player_data := extractPlayer player env',
                  choices_visibility := extractChoices cmap env' }) := by
            simp only [execute, hinj, hload, hex]
          rw [hout] at h
          cases h

/-- C6 witness: the unbalanced `if true then` fails and its printed
message carries the `Syntax Error` tag. -/
theorem c6_witness :
    (∃ er, luaLoad "if true then" = Except.error er ∧
        (execute initStore exampleNode examplePlayer "if true then").log =
          ["Syntax Error: " ++ er]) ∨
      (∃ chunk er pre, luaLoad "if true then" = Except.ok chunk ∧
        (execute initStore exampleNode examplePlayer "if true then").log =
          pre ++ ["Runtime Error: " ++ er]) :=
  c6_failure_tagged initStore exampleNode examplePlayer "if true then" (by decide)

/-- C4, counterexample: on the node whose two distinct choice
identifiers `a-b` and `a_b` mangle to the same safe name, a successful
call returns a `choices_visibility` with a single entry — fewer entries
than the choices of the node — so the mapping does not contain one entry
per choice. -/
theorem c4_counterexample :
    (execute initStore collisionNode [] "").outcome =
        PyOutcome.returned (some
          { url := Value.str "", description := Value.str "",
            player_data := [],
            choices_visibility := [("a_b", Value.boolean true)] }) ∧
      ((collisionNode.choices).getD []).length = 2 := by
  exact ⟨by decide, by decide⟩

/-- C5, counterexample: the mangling is not injective over the
identifiers of one invocation: `a-b` and `a_b` are distinct identifiers
with the same safe name, and the reverse table of that invocation sends
the safe name of `a-b` back to `a_b`, not to `a-b`. -/
theorem c5_counterexample :
    toLuaSafeId "a-b" = toLuaSafeId "a_b" ∧ "a-b" ≠ "a_b" ∧
      injectChoices [{ id := some "a-b" }, { id := some "a_b" }] [] [] =
        Except.ok ([("a_b", "a_b")], [("choice_a_b", Value.boolean true)]) ∧
      lookupStr [("a_b", "a_b")] (toLuaSafeId "a-b") = some "a_b" := by
  refine ⟨by decide, by decide, by rfl, by decide⟩

/-- C7, counterexample: a player key equal to the flag name of a choice
is clobbered by the flag injection: with `playerData = {"choice_a": 5}`
and a node whose one choice has identifier `a`, a script that touches
nothing returns `player_data["choice_a"] == true`, not the input `5`. -/
theorem c7_counterexample :
    (execute initStore clobberNode clobberPlayer "").outcome =
        PyOutcome.returned (some
          { url := Value.str "", description := Value.str "",
            player_data := [("choice_a", Value.boolean true)],
            choices_visibility := [("a", Value.boolean true)] }) ∧
      lookupStr clobberPlayer "choice_a" = some (Value.num 5) := by
  exact ⟨by decide, by decide⟩

/-- C8, code bug: two consecutive calls to `execute` with identical
node data, player data and script do not produce identical results.  The
sandbox environment aliases the shared `math` library table of the
single long-lived runtime by reference, so a script that writes
`math.c = true` leaves that mark in the runtime: the first call returns
`energy == 20`, the second — fed the store the first call left behind —
returns `energy == 99`. -/
theorem c8_state_leak :
    (execute initStore exampleNode examplePlayer leakScript).outcome =
        PyOutcome.returned (some
          { url := Value.str "https://forest.com",
            description := Value.str "The trees whisper.",
            player_data := [("energy", Value.num 20)],
            choices_visibility :=
              [(uuidStay, Value.boolean true), (uuidRun, Value.boolean true)] }) ∧
      (execute (execute initStore exampleNode examplePlayer leakScript).store
          exampleNode examplePlayer leakScript).outcome =
        PyOutcome.returned (some
          { url := Value.str "https://forest.com",
            description := Value.str "The trees whisper.",
            player_data := [("energy", Value.num 99)],
            choices_visibility :=
              [(uuidStay, Value.boolean true), (uuidRun, Value.boolean true)] }) := by
  exact ⟨by decide, by decide⟩

/-- C1 (amended): for every node, player data and script such that every
choice record of the node carries an `id` key, `execute` returns a value
(a success record or the `None` failure value) and no exception escapes;
exceptions inside the Lua execution stage are caught.  A choice record
without an `id` key, however, raises `KeyError` from the environment
setup stage, which runs before the `try` block, and that exception
propagates to the caller (see the counterexample). -/
theorem c1_no_raise_of_wellshaped (store0 : Store) (node : NodeData)
    (player : List (String × Value)) (src : String)
    (h : ∀ c ∈ (node.choices).getD [], (c.id).isSome) :
    ∃ r, (execute store0 node player src).outcome = PyOutcome.returned r := by
  obtain ⟨⟨cmap, env5⟩, hinj⟩ := injectChoices_ok ((node.choices).getD []) []
    (envAfterPlayer node player store0.tables.length) h
  simp only [execute, hinj]
  split
  next => exact ⟨none, rfl⟩
  next chunk hload =>
    split
    next => exact ⟨none, rfl⟩
    next => exact ⟨_, rfl⟩

/-- C1 witness: a well-shaped concrete call returns a value. -/
theorem c1_witness :
    ∃ r, (execute initStore exampleNode examplePlayer "x()").outcome =
      PyOutcome.returned r :=
  c1_no_raise_of_wellshaped initStore exampleNode examplePlayer "x()" (by decide)

/-- C2: the sandbox environment contains exactly the restricted base
bindings (`math`, `string`, `table`, `pairs`, `ipairs`, `tonumber`,
`tostring`, `print`) plus the injected `url`, `description`, `choices`,
player and choice-flag bindings; and a script that reaches any other
symbol — by a direct call `g(...)` or through a field as in
`io.open(...)` — never succeeds: `execute` returns the failure value
after printing a `Runtime Error` tag.  No injected binding reads or
writes files, sockets or processes: the base bindings are the pure
builtins and library tables of the model. -/
theorem c2_sandbox_closed :
    (∀ (node : NodeData) (player : List (String × Value)) (a : Nat)
        (cmap : List (String × String)) (env5 : Env) (k : String),
        injectChoices ((node.choices).getD []) [] (envAfterPlayer node player a) =
          Except.ok (cmap, env5) →
        ((lookupStr env5 k).isSome ↔
          k ∈ baseKeys ∨ k ∈ player.map Prod.fst ∨
            isFlagOf ((node.choices).getD []) k)) ∧
    (∀ (store0 : Store) (node : NodeData) (player : List (String × Value))
        (src g : String) (args : List Expr) (rest : Stat),
        (∀ c ∈ (node.choices).getD [], (c.id).isSome) →
        luaLoad src = Except.ok (Stat.seq (Stat.callS (Expr.var g) args) rest) →
        g ∉ baseKeys → g ∉ player.map Prod.fst →
        ¬ isFlagOf ((node.choices).getD []) g →
        (execute store0 node player src).outcome = PyOutcome.returned none ∧
          ∃ pre er, (execute store0 node player src).log =
            pre ++ ["Runtime Error: " ++ er]) ∧
    (∀ (store0 : Store) (node : NodeData) (player : List (String × Value))
        (src g f : String) (args : List Expr) (rest : Stat),
        (∀ c ∈ (node.choices).getD [], (c.id).isSome) →
        luaLoad src =
          Except.ok (Stat.seq (Stat.callS (Expr.index (Expr.var g) f) args) rest) →
        g ∉ baseKeys → g ∉ player.map Prod.fst →
        ¬ isFlagOf ((node.choices).getD []) g →
        (execute store0 node player src).outcome = PyOutcome.returned none ∧
          ∃ pre er, (execute store0 node player src).log =
            pre ++ ["Runtime Error: " ++ er]) := by
  refine ⟨fun node player a cmap env5 k hinj => env5_isSome node player a cmap env5 k hinj,
    ?_, ?_⟩
  · intro store0 node player src g args rest hws hload hg1 hg2 hg3
    obtain ⟨⟨cmap, env5⟩, hinj⟩ := injectChoices_ok ((node.choices).getD []) []
      (envAfterPlayer node player store0.tables.length) hws
    have hgnone : lookupStr env5 g = none := by
      rw [← Option.not_isSome_iff_eq_none,
        env5_isSome node player _ cmap env5 g hinj]
      rintro (h | h | h)
      · exact hg1 h
      · exact hg2 h
      · exact hg3 h
    obtain ⟨er, st', heval⟩ := evalExpr_call_missing env5 g args
      { store := store0.allocated (choicesTbl ((node.choices).getD [])),
        log := [], pyChoices := (node.choices).getD [] } hgnone
    have hstat := execStat_seq_err _ rest env5 _ er env5 st'
      (execStat_callS_err env5 (Expr.var g) args _ er st' heval)
    have hres : execute store0 node player src =
        { outcome := PyOutcome.returned none,
          log := st'.log ++ ["Runtime Error: " ++ er], store := st'.store,
          nodeChoices := st'.pyChoices } := by
      simp only [execute, hinj, hload, hstat]
    rw [hres]
    exact ⟨rfl, st'.log, er, rfl⟩
  · intro store0 node player src g f args rest hws hload hg1 hg2 hg3
    obtain ⟨⟨cmap, env5⟩, hinj⟩ := injectChoices_ok ((node.choices).getD []) []
      (envAfterPlayer node player store0.tables.length) hws
    have hgnone : lookupStr env5 g = none := by
      rw [← Option.not_isSome_iff_eq_none,
        env5_isSome node player _ cmap env5 g hinj]
      rintro (h | h | h)
      · exact hg1 h
      · exact hg2 h
      · exact hg3 h
    have heval := evalExpr_call_index_missing env5 g f args
      { store := store0.allocated (choicesTbl ((node.choices).getD [])),
        log := [], pyChoices := (node.choices).getD [] } hgnone
    have hstat := execStat_seq_err _ rest env5 _ _ env5 _
      (execStat_callS_err env5 (Expr.index (Expr.var g) f) args _ _ _ heval)
    have hres : execute store0 node player src =
        { outcome := PyOutcome.returned none,
          log := [] ++ ["Runtime Error: " ++ "attempt to index a nil value"],
          store := store0.allocated (choicesTbl ((node.choices).getD [])),
          nodeChoices := (node.choices).getD [] } := by
      simp only [execute, hinj, hload, hstat]
    rw [hres]
    exact ⟨rfl, [], "attempt to index a nil value", rfl⟩

/-- C2 witness: the concrete `io.open("x")` probe fails with a runtime
error and never succeeds. -/
theorem c2_witness :
    (execute initStore exampleNode examplePlayer "io.open(\"x\")").outcome =
        PyOutcome.returned none ∧
      ∃ pre er, (execute initStore exampleNode examplePlayer "io.open(\"x\")").log =
        pre ++ ["Runtime Error: " ++ er] := by
  exact c2_sandbox_closed.2.2 initStore exampleNode examplePlayer "io.open(\"x\")"
    "io" "open" [Expr.lit (Value.str "x")] Stat.skip (by decide) rfl
    (by decide) (by decide) (by decide)

/-- C4 (amended): for every successful invocation whose choice
identifiers mangle to pairwise distinct safe names, `choices_visibility`
contains one entry per choice of the node, keyed by the original
identifier, and the value is `true` for every choice whose flag the
script never assigned.  When two identifiers collide after mangling the
mapping has fewer entries than the choice list (see the
counterexample). -/
theorem c4_visibility_complete (store0 : Store) (node : NodeData)
    (player : List (String × Value)) (src : String) (r : ExecResult)
    (hws : ∀ c ∈ (node.choices).getD [], (c.id).isSome)
    (hnd : (mangledIds ((node.choices).getD [])).Nodup)
    (hsucc : (execute store0 node player src).outcome = PyOutcome.returned (some r)) :
    r.choices_visibility.map Prod.fst = realIds ((node.choices).getD []) ∧
      ∀ ast, luaLoad src = Except.ok ast →
        ∀ c ∈ (node.choices).getD [], ∀ rid, c.id = some rid →
          assigns ast (flagName rid) = false →
          lookupStr r.choices_visibility rid = some (Value.boolean true) := by
  obtain ⟨cmap, env5, chunk, env', st', hinj, hload, hex, hr⟩ :=
    execute_success_inv store0 node player src r hsucc
  have hcm : cmap = ((node.choices).getD []).filterMap
      (fun c => c.id.map (fun rid => (toLuaSafeId rid, rid))) := by
    simpa using inject_cmap_list _ _ _ _ _ hinj hnd (fun s _ => rfl)
  have hkeys : r.choices_visibility.map Prod.fst = realIds ((node.choices).getD []) := by
    rw [hr]
    simp only [extractChoices, List.map_map]
    rw [hcm]
    simp only [realIds, List.map_filterMap, Option.map_map]
    congr 1
    funext x
    cases x.id <;> rfl
  refine ⟨hkeys, ?_⟩
  intro ast hloadast c hc rid hid hna
  have hchunk : chunk = ast := by
    rw [hloadast] at hload
    exact (Except.ok.inj hload).symm
  have hflag : lookupStr env' (flagName rid) = some (Value.boolean true) := by
    rw [execStat_frame chunk (flagName rid) _ _ _ _ _ hex (by rw [hchunk]; exact hna)]
    exact inject_flag_true _ _ _ _ _ hinj c hc rid hid
  have hmem : (rid, Value.boolean true) ∈ r.choices_visibility := by
    rw [hr]
    simp only [extractChoices]
    refine List.mem_map.mpr ⟨(toLuaSafeId rid, rid), ?_, ?_⟩
    · rw [hcm]
      exact List.mem_filterMap.mpr ⟨c, hc, by simp [hid]⟩
    · have : ("choice_" ++ toLuaSafeId rid) = flagName rid := rfl
      rw [this, hflag]
      rfl
  have hndkeys : (r.choices_visibility.map Prod.fst).Nodup := by
    rw [hkeys]
    exact (mangledIds_eq_map ((node.choices).getD []) ▸ hnd).of_map
  exact lookup_of_mem_nodup _ _ _ hndkeys hmem

/-- C4 witness: a concrete script that touches no choice flag returns
both original identifiers mapped to `true`. -/
theorem c4_witness :
    (execute initStore exampleNode examplePlayer "energy = 1").outcome =
        PyOutcome.returned (some
          { url := Value.str "https://forest.com",
            description := Value.str "The trees whisper.",
            player_data := [("energy", Value.num 1)],
            choices_visibility :=
              [(uuidStay, Value.boolean true), (uuidRun, Value.boolean true)] }) ∧
      lookupStr
        [(uuidStay, Value.boolean true), (uuidRun, Value.boolean true)] uuidRun =
        some (Value.boolean true) := by
  have h1 : (execute initStore exampleNode examplePlayer "energy = 1").outcome =
      PyOutcome.returned (some
        { url := Value.str "https://forest.com",
          description := Value.str "The trees whisper.",
          player_data := [("energy", Value.num 1)],
          choices_visibility :=
            [(uuidStay, Value.boolean true), (uuidRun, Value.boolean true)] }) := by
    decide
  have h2 := c4_visibility_complete initStore exampleNode examplePlayer "energy = 1"
    { url := Value.str "https://forest.com",
      description := Value.str "The trees whisper.",
      player_data := [("energy", Value.num 1)],
      choices_visibility :=
        [(uuidStay, Value.boolean true), (uuidRun, Value.boolean true)] }
    (by decide) (by decide) h1
  exact ⟨h1, h2.2 (Stat.seq (Stat.assign "energy" (Expr.lit (Value.num 1))) Stat.skip)
    rfl { id := some uuidRun } (by decide) uuidRun rfl (by decide)⟩

/-- C5 (amended): for every invocation whose distinct choice identifiers
mangle to pairwise distinct safe names, the mangling together with the
per-call reverse table is a bijection over the identifiers in use:
unmangling the safe name recovers exactly the original identifier, and
the mangling is injective over those identifiers.  When two distinct
identifiers collide, the reverse table loses the earlier one (see the
counterexample). -/
theorem c5_mangle_roundtrip (cs : List ChoiceRec) (m : List (String × String))
    (e : Env) (cmap : List (String × String)) (env5 : Env)
    (hnd : (mangledIds cs).Nodup)
    (hinj : injectChoices cs m e = Except.ok (cmap, env5)) :
    (∀ c ∈ cs, ∀ rid, c.id = some rid →
        lookupStr cmap (toLuaSafeId rid) = some rid) ∧
      (∀ c ∈ cs, ∀ c' ∈ cs, ∀ rid rid', c.id = some rid → c'.id = some rid' →
        toLuaSafeId rid = toLuaSafeId rid' → rid = rid') := by
  refine ⟨fun c hc rid hid => inject_cmap_lookup _ _ _ _ _ hinj hnd c hc rid hid, ?_⟩
  intro c hc c' hc' rid rid' hid hid' hsafe
  have h1 := inject_cmap_lookup _ _ _ _ _ hinj hnd c hc rid hid
  have h2 := inject_cmap_lookup _ _ _ _ _ hinj hnd c' hc' rid' hid'
  rw [hsafe, h2] at h1
  exact (Option.some.inj h1).symm

/-- C5 witness: for the two example identifiers the reverse table sends
the mangled form of the Run identifier back to itself. -/
theorem c5_witness :
    lookupStr [("52cd4b74_08d2_4709_8804_e6fa6deebe36", uuidStay),
        ("3da81c9d_67bc_4419_ae5a_082c388a6d6d", uuidRun)]
      (toLuaSafeId uuidRun) = some uuidRun := by
  exact (c5_mangle_roundtrip [{ id := some uuidStay }, { id := some uuidRun }] [] []
      [("52cd4b74_08d2_4709_8804_e6fa6deebe36", uuidStay),
       ("3da81c9d_67bc_4419_ae5a_082c388a6d6d", uuidRun)]
      [("choice_52cd4b74_08d2_4709_8804_e6fa6deebe36", Value.boolean true),
       ("choice_3da81c9d_67bc_4419_ae5a_082c388a6d6d", Value.boolean true)]
      (by decide) rfl).1
    { id := some uuidRun } (by decide) uuidRun rfl

/-- C7 (amended): for every successful call with distinct player keys
none of which equals a choice-flag name of the node, the returned
`player_data` has an entry for every input key, and every key the script
never assigned keeps its input value.  A player key equal to a flag name
is clobbered to `true` by the later flag injection (see the
counterexample). -/
theorem c7_player_frame (store0 : Store) (node : NodeData)
    (player : List (String × Value)) (src : String) (r : ExecResult) (ast : Stat)
    (hnodup : (player.map Prod.fst).Nodup)
    (hnoclash : ∀ k ∈ player.map Prod.fst, ¬ isFlagOf ((node.choices).getD []) k)
    (hload : luaLoad src = Except.ok ast)
    (hsucc : (execute store0 node player src).outcome = PyOutcome.returned (some r)) :
    (∀ k ∈ player.map Prod.fst, (lookupStr r.player_data k).isSome) ∧
      (∀ k v, (k, v) ∈ player → assigns ast k = false →
        lookupStr r.player_data k = some v) := by
  obtain ⟨cmap, env5, chunk, env', st', hinj, hload2, hex, hr⟩ :=
    execute_success_inv store0 node player src r hsucc
  have hchunk : chunk = ast := by
    rw [hload] at hload2
    exact (Except.ok.inj hload2).symm
  constructor
  · intro k hk
    rw [hr]
    exact extractPlayer_isSome player env' k hk
  · intro k v hm hna
    have hkmem : k ∈ player.map Prod.fst := List.mem_map.mpr ⟨(k, v), hm, rfl⟩
    have hk5 : lookupStr env5 k = some v := by
      rw [inject_nonflag _ _ _ _ _ _ hinj ?_]
      · exact envAfterPlayer_val node player _ k v hnodup hm
      · intro c hc rid hid hkf
        exact hnoclash k hkmem
          ((isFlagOf_iff _ _).mpr ⟨c, hc, rid, hid, hkf⟩)
    have henv' : lookupStr env' k = some v := by
      rw [execStat_frame chunk k _ _ _ _ _ hex (by rw [hchunk]; exact hna)]
      exact hk5
    rw [hr]
    rw [lookup_extractPlayer player env' k v hnodup hm, henv']
    rfl

/-- C7 witness: an untouched `energy` passes through unchanged on a
concrete successful call. -/
theorem c7_witness :
    (execute initStore exampleNode examplePlayer "x = 1").outcome =
        PyOutcome.returned (some
          { url := Value.str "https://forest.com",
            description := Value.str "The trees whisper.",
            player_data := [("energy", Value.num 20)],
            choices_visibility :=
              [(uuidStay, Value.boolean true), (uuidRun, Value.boolean true)] }) ∧
      lookupStr [("energy", Value.num 20)] "energy" = some (Value.num 20) := by
  have h1 : (execute initStore exampleNode examplePlayer "x = 1").outcome =
      PyOutcome.returned (some
        { url := Value.str "https://forest.com",
          description := Value.str "The trees whisper.",
          player_data := [("energy", Value.num 20)],
          choices_visibility :=
            [(uuidStay, Value.boolean true), (uuidRun, Value.boolean true)] }) := by
    decide
  have h2 := (c7_player_frame initStore exampleNode examplePlayer "x = 1"
    { url := Value.str "https://forest.com",
      description := Value.str "The trees whisper.",
      player_data := [("energy", Value.num 20)],
      choices_visibility :=
        [(uuidStay, Value.boolean true), (uuidRun, Value.boolean true)] }
    (Stat.seq (Stat.assign "x" (Expr.lit (Value.num 1))) Stat.skip)
    (by decide) (by decide) rfl h1).2 "energy" (Value.num 20) (by decide) (by decide)
  exact ⟨h1, h2⟩

/-- C9, counterexample: `execute` can mutate its `nodeData` input.  The
`choices` table wraps the caller-owned choice dictionaries by reference,
and lupa's attribute protocol resolves dict method names, so the script
`choices[1].pop("id")` succeeds and removes the `id` key from the first
choice record of the caller's node in place: after the call the node's
choice list differs from what was supplied. -/
theorem c9_counterexample :
    (execute initStore exampleNode examplePlayer "choices[1].pop(\"id\")").outcome =
        PyOutcome.returned (some
          { url := Value.str "https://forest.com",
            description := Value.str "The trees whisper.",
            player_data := [("energy", Value.num 20)],
            choices_visibility :=
              [(uuidStay, Value.boolean true), (uuidRun, Value.boolean true)] }) ∧
      (execute initStore exampleNode examplePlayer
          "choices[1].pop(\"id\")").nodeChoices =
        [{ id := none }, { id := some uuidRun }] ∧
      (exampleNode.choices).getD [] =
        [{ id := some uuidStay }, { id := some uuidRun }] := by
  refine ⟨by decide, by decide, by decide⟩

/-- C9 (amended): `execute` never mutates the `playerData` mapping
(player values enter and leave the environment as copied scalars), and
on success the returned `player_data` and `choices_visibility` are
containers built afresh by the extraction maps over the final
environment; a direct field assignment through a wrapped choice
dictionary always faults, so that route cannot mutate the caller's
node.  The node is nevertheless not fully protected: mutating dict
methods reached through the `choices` wrapper change the caller's
choice records in place (see the counterexample). -/
theorem c9_no_input_mutation :
    (∀ (env : Env) (tExpr : Expr) (k : String) (rhs : Expr) (st : MState) (i : Nat)
        (st₂ : MState),
        evalExpr env tExpr st = (Except.ok (Value.pyref i), st₂) →
        ∃ er env₂ st₃,
          execStat (Stat.assignIndex tExpr k rhs) env st = (Except.error er, env₂, st₃)) ∧
      (∀ (store0 : Store) (node : NodeData) (player : List (String × Value))
          (src : String) (r : ExecResult),
        (execute store0 node player src).outcome = PyOutcome.returned (some r) →
        ∃ cmap env', r.player_data = extractPlayer player env' ∧
          r.choices_visibility = extractChoices cmap env') := by
  refine ⟨?_, ?_⟩
  · intro env tExpr k rhs st i st₂ hev
    simp only [execStat, hev]
    rcases heq : evalExpr env rhs st₂ with ⟨rv, st₃⟩
    cases rv with
    | error er => exact ⟨er, env, st₃, rfl⟩
    | ok v =>
        exact ⟨"AttributeError: cannot set attribute on dict object", env, st₃, rfl⟩
  · intro store0 node player src r h
    obtain ⟨cmap, env5, chunk, env', st', hinj, hload, hex, hr⟩ :=
      execute_success_inv store0 node player src r h
    exact ⟨cmap, env', by rw [hr], by rw [hr]⟩

/-- C9 witness: a concrete write through a wrapped choice dictionary
faults. -/
theorem c9_witness :
    ∃ er env₂ st₃,
      execStat (Stat.assignIndex (Expr.var "d") "id" (Expr.lit (Value.num 1)))
          [("d", Value.pyref 0)]
          { store := initStore, log := [], pyChoices := [] } =
        (Except.error er, env₂, st₃) :=
  c9_no_input_mutation.1 [("d", Value.pyref 0)] (Expr.var "d") "id"
    (Expr.lit (Value.num 1)) { store := initStore, log := [], pyChoices := [] } 0
    { store := initStore, log := [], pyChoices := [] } rfl

/-- C10: when the two distinct choice identifiers of a node mangle to
one safe name, `execute` neither rejects nor flags the collision: the
later choice silently overwrites the earlier one in the per-call reverse
table, both choices share a single flag variable in the environment, and
a successful call returns a `choices_visibility` keyed only by the later
identifier — one entry against the two choices of the node. -/
theorem c10_collision_overwrite (store0 : Store) (u d : Option String)
    (player : List (String × Value)) (src : String) (id1 id2 : String)
    (hne : id1 ≠ id2) (hsafe : toLuaSafeId id1 = toLuaSafeId id2) :
    (∀ e : Env, injectChoices [{ id := some id1 }, { id := some id2 }] [] e =
        Except.ok ([(toLuaSafeId id1, id2)],
          upsert e (flagName id1) (Value.boolean true))) ∧
      ∀ r : ExecResult,
        (execute store0
            { url := u, description := d,
              choices := some [{ id := some id1 }, { id := some id2 }] }
            player src).outcome = PyOutcome.returned (some r) →
        r.choices_visibility.map Prod.fst = [id2] ∧
          r.choices_visibility.length = 1 := by
  have hflag : flagName id2 = flagName id1 := by
    simp [flagName, hsafe]
  have hinj : ∀ e : Env, injectChoices [{ id := some id1 }, { id := some id2 }] [] e =
      Except.ok ([(toLuaSafeId id1, id2)],
        upsert e (flagName id1) (Value.boolean true)) := by
    intro e
    simp only [injectChoices]
    rw [show upsert ([] : List (String × String)) (toLuaSafeId id1) id1 =
      [(toLuaSafeId id1, id1)] from rfl]
    rw [show upsert [(toLuaSafeId id1, id1)] (toLuaSafeId id2) id2 =
      [(toLuaSafeId id1, id2)] by simp [upsert, hsafe]]
    have he : upsert (upsert e ("choice_" ++ toLuaSafeId id1) (Value.boolean true))
        ("choice_" ++ toLuaSafeId id2) (Value.boolean true) =
        upsert e (flagName id1) (Value.boolean true) := by
      rw [← hsafe]
      exact upsert_upsert_same e _ _ _
    rw [he]
  refine ⟨hinj, ?_⟩
  intro r hsucc
  obtain ⟨cmap, env5, chunk, env', st', hinj2, hload, hex, hr⟩ :=
    execute_success_inv _ _ _ _ _ hsucc
  have h3 : Except.ok ((([(toLuaSafeId id1, id2)] : List (String × String)),
      upsert (envAfterPlayer
          { url := u, description := d,
            choices := some [{ id := some id1 }, { id := some id2 }] }
          player store0.tables.length) (flagName id1) (Value.boolean true))) =
      Except.ok ((cmap, env5)) :=
    (hinj _).symm.trans hinj2
  have hcm : cmap = [(toLuaSafeId id1, id2)] :=
    (congrArg Prod.fst (Except.ok.inj h3)).symm
  rw [hr]
  simp [extractChoices, hcm]

/-- C10 witness: the concrete colliding pair `a-b`, `a_b`. -/
theorem c10_witness :
    injectChoices [{ id := some "a-b" }, { id := some "a_b" }] [] [] =
      Except.ok ([(toLuaSafeId "a-b", "a_b")],
        upsert [] (flagName "a-b") (Value.boolean true)) :=
  (c10_collision_overwrite initStore none none [] "" "a-b" "a_b"
    (by decide) (by decide)).1 []

end CyoaSandbox
